import Mathlib

/-!
# insect_dose_sim: dose ledger, dose report, photon spectrum and mesh geometry

A shallow embedding of the dose bookkeeping of the simulation
(`SteppingAction`, `RunAction`), of the energy spectrum of the photon source
(`PrimaryGeneratorAction`) and of the mesh loader and geometry build
(`DetectorConstruction`).

Conventions of the embedding:

* `G4double` values are exact rationals (`ℚ`); every statement below is a
  statement of exact arithmetic, not of IEEE-754 rounding.
* A division by zero yields no number in the code (an infinity or NaN).  The
  sampler divides with `divide`, which is undefined for a zero divisor; the
  loop body of the report is read with the total quotient (`reportRow`) and
  with `divide` (`reportRowChecked`).
* `std::sort` is a parameter `stdSort` of which only the guarantee of the
  standard is assumed (`StdSort`): the order of pairs of equal energy is open.
* The file system is a parameter: `readSpectrum` for the spectrum file,
  `Host.files` for the mesh files, `canOpen` for the report file.
* `std::map<std::string, G4double>` is the list of its entries in iteration
  order.  `std::map` keeps its keys strictly ascending; `StdMap.WF` states that
  invariant and the map operations preserve it.
* `std::vector<G4double>` is a `List ℚ`; an access outside the vector yields
  `none`.
* CLHEP units are the numeric factors of `CLHEP/Units/SystemOfUnits.h`
  (`mm = 1`, `MeV = 1`).
* A binary STL file is the decoded content of its bytes: the triangle count and
  the complete 50-byte records; `float` coordinates are rationals.
* The Geant4 solids are modelled from the specification: a tessellated solid is
  the list of the facets added to it, its cubic volume the signed volume of
  that facet decomposition.
-/

namespace InsectDose

/-! ## CLHEP units and `parameters.h` -/

/-- CLHEP `mm`, the base unit of length. -/
def mm : ℚ := 1

/-- CLHEP `mm3 = mm * mm * mm`. -/
def mm3 : ℚ := mm * mm * mm

/-- CLHEP `eV = 1e-6 * MeV`, with `MeV = 1` the base unit of energy. -/
def eV : ℚ := 1e-6

/-- CLHEP `keV = 1e-3 * MeV`. -/
def keV : ℚ := 1e-3

/-- The global `beamSize = 10 * CLHEP::mm` of `parameters.h`. -/
def beamSize : ℚ := 10 * mm

/-- The global `beamArea = beamSize * beamSize` of `parameters.h`, in mm². -/
def beamArea : ℚ := beamSize * beamSize

/-- The quotient `a / b` of two `G4double` values as a number: `none` when the
divisor is zero, where the quotient of the code is an infinity or not a
number. -/
def divide (a b : ℚ) : Option ℚ := if b = 0 then none else some (a / b)

/-! ## `std::map<std::string, G4double>` -/

/-- The entries of a `std::map<std::string, G4double>` in iteration order. -/
abbrev StdMap := List (String × ℚ)

namespace StdMap

/-- The keys of the map in iteration order. -/
def keys (m : StdMap) : List String := m.map Prod.fst

/-- The invariant of `std::map`: keys strictly ascending, hence each once. -/
def WF (m : StdMap) : Prop := m.keys.Pairwise (· < ·)

/-- The lookup `m.find(k)`: the mapped value, `none` for `m.end()`. -/
def find : StdMap → String → Option ℚ
  | [], _ => none
  | (k', v) :: rest, k => if k' = k then some v else find rest k

/-- The assignment `m[k] = v`: the entry of `k` is overwritten, or a new entry
is inserted at the place its key has in the ascending order. -/
def assign : StdMap → String → ℚ → StdMap
  | [], k, v => [(k, v)]
  | (k', v') :: rest, k, v =>
    if k < k' then (k, v) :: (k', v') :: rest
    else if k = k' then (k, v) :: rest
    else (k', v') :: assign rest k v

/-- The compound assignment `m[k] += e`: `operator[]` value-initialises a
missing entry to `0.0`, then `e` is added to the entry. -/
def addAssign (m : StdMap) (k : String) (e : ℚ) : StdMap :=
  assign m k ((m.find k).getD 0 + e)

/-- The call `m.clear()`. -/
def clear (_ : StdMap) : StdMap := []

end StdMap

/-! ## `SteppingAction` -/

/-- The static data members of `SteppingAction`: the dose ledger `doseMap`
(volume name to deposited energy in MeV) and the volume registry `volumeMap`
(volume name to volume in mm³). -/
structure SteppingAction where
  doseMap : StdMap
  volumeMap : StdMap
deriving DecidableEq

/-- What `UserSteppingAction` reads of a `G4Step`: the total energy deposit and
the name of the physical volume of the pre-step point (`none` when the volume
pointer is null). -/
structure G4Step where
  totalEnergyDeposit : ℚ
  volume : Option String
deriving DecidableEq

namespace SteppingAction

/-- `SteppingAction::setVolume(name, volume)`: `volumeMap[name] = volume`. -/
def setVolume (g : SteppingAction) (name : String) (volume : ℚ) : SteppingAction :=
  { g with volumeMap := g.volumeMap.assign name volume }

/-- `SteppingAction::UserSteppingAction(step)`. -/
def UserSteppingAction (g : SteppingAction) (step : G4Step) : SteppingAction :=
  let energyDep := step.totalEnergyDeposit
  if energyDep ≤ 0 then g
  else
    match step.volume with
    | none => g
    | some volumeName =>
      if volumeName = "World" then g
      else { g with doseMap := g.doseMap.addAssign volumeName energyDep }

/-- `SteppingAction::getDoseMap()`. -/
def getDoseMap (g : SteppingAction) : StdMap := g.doseMap

/-- `SteppingAction::getVolumeMap()`. -/
def getVolumeMap (g : SteppingAction) : StdMap := g.volumeMap

end SteppingAction

/-! ## `RunAction` -/

/-- One table row of the dose report, the values streamed by
`EndOfRunAction` in column order. -/
structure ReportRow where
  volName : String
  /-- Column `Volume (mm3)`: `volume / mm3`. -/
  volume : ℚ
  /-- Column `Density (g/cm3)`: `density * 1e3`. -/
  density : ℚ
  /-- Column `Energy Dep (MeV)`: `totalEnergyDep`. -/
  energyDep : ℚ
  dose : ℚ
  dosePerEvent : ℚ
  doseRate : ℚ
deriving DecidableEq

/-- The dose report of `EndOfRunAction`: the name of the output file, whether
`std::ofstream outFile(fileName.str())` opened it, the two header values and
the table rows.  The rows are streamed to `G4cout` and to `outFile`, the header
values to `outFile` only.  The state of the stream is never tested: when the
file did not open, every `outFile <<` is without effect and no file exists. -/
structure Report where
  fileName : String
  fileOpened : Bool
  nEvents : Int
  photonFlux : ℚ
  rows : List ReportRow
deriving DecidableEq

/-- The content of the output file after `EndOfRunAction`: the two header
values and the rows; `none` when the file did not open. -/
def Report.file (rep : Report) : Option (Int × ℚ × List ReportRow) :=
  if rep.fileOpened then some (rep.nEvents, rep.photonFlux, rep.rows) else none

namespace RunAction

/-- `RunAction::BeginOfRunAction`: `SteppingAction::getDoseMap().clear()`. -/
def BeginOfRunAction (g : SteppingAction) : SteppingAction :=
  { g with doseMap := g.getDoseMap.clear }

/-- The density in g/mm³ that the loop of `EndOfRunAction` assigns to a volume
name: `0.95e-3`, overridden for `"Tube"` and then for `"Ethanol"`. -/
def densityOf (volName : String) : ℚ :=
  let density : ℚ := 0.95e-3
  let density := if volName = "Tube" then 1.05e-3 else density
  let density := if volName = "Ethanol" then 0.789e-3 else density
  density

/-- The local `mass = volume * density` of the loop of `EndOfRunAction`. -/
def massOf (volName : String) (volume : ℚ) : ℚ := volume * densityOf volName

/-- The body of the loop of `EndOfRunAction` for one registry entry
`(fst, snd)`, given `nEvents`, `photonsPerSecond` and the dose ledger.  The
division of `G4double` values is the parameter `div`, with results in the
monad `m`: the body is read once with the total quotient of the rationals
(`reportRow`) and once with the quotient that is undefined for a zero divisor
(`reportRowChecked`). -/
def reportRowWith (m : Type → Type) [Monad m] (div : ℚ → ℚ → m ℚ) (nEvents : Int)
    (photonsPerSecond : ℚ) (doseMap : StdMap) (entry : String × ℚ) : m ReportRow :=
  let volName := entry.1
  let totalEnergyDep : ℚ :=
    match doseMap.find volName with
    | some second => second
    | none => 0
  let volume := entry.2
  let density := densityOf volName
  let mass := volume * density
  let doses : m (ℚ × ℚ × ℚ) :=
    if mass > 0 then do
      let dose ← div (totalEnergyDep * 1.602e-10) mass
      let dosePerEvent ← div dose (nEvents : ℚ)
      let doseRate := dosePerEvent * photonsPerSecond
      pure (dose, dosePerEvent, doseRate)
    else pure (0, 0, 0)
  do
    let d ← doses
    let streamed ← div volume mm3
    pure
      { volName := volName
        volume := streamed
        density := density * 1e3
        energyDep := totalEnergyDep
        dose := d.1
        dosePerEvent := d.2.1
        doseRate := d.2.2 }

/-- The row that the loop body of `EndOfRunAction` streams for one registry
entry, in exact arithmetic. -/
def reportRow (nEvents : Int) (photonsPerSecond : ℚ) (doseMap : StdMap)
    (entry : String × ℚ) : ReportRow :=
  Id.run (reportRowWith Id (fun a b => a / b) nEvents photonsPerSecond doseMap entry)

/-- The loop body of `EndOfRunAction` with every division checked: the row, or
`none` when the body executes a division whose divisor is zero. -/
def reportRowChecked (nEvents : Int) (photonsPerSecond : ℚ) (doseMap : StdMap)
    (entry : String × ℚ) : Option ReportRow :=
  reportRowWith Option divide nEvents photonsPerSecond doseMap entry

/-- `RunAction::EndOfRunAction`: no report (`none`) for a run of zero events,
otherwise the report.  `canOpen path` tells whether the file system lets
`std::ofstream` open `path` for writing, `nEvents` is
`run->GetNumberOfEvent()`, `photonFlux` is
`PrimaryGeneratorAction::GetPhotonFlux()`, `insectName` is the selected insect
of the detector construction. -/
def EndOfRunAction (canOpen : String → Bool) (outputPrefix insectName : String) (nEvents : Int)
    (photonFlux : ℚ) (g : SteppingAction) : Option Report :=
  if nEvents = 0 then none
  else
    let doseMap := g.getDoseMap
    let volumeMap := g.getVolumeMap
    let beamArea_mm2 := beamArea
    let photonsPerSecond := photonFlux * beamArea_mm2
    some
      { fileName := outputPrefix ++ insectName ++ ".txt"
        fileOpened := canOpen (outputPrefix ++ insectName ++ ".txt")
        nEvents := nEvents
        photonFlux := photonFlux
        rows := volumeMap.map (reportRow nEvents photonsPerSecond doseMap) }

end RunAction

/-! ## `PrimaryGeneratorAction` -/

/-- The data members of `PrimaryGeneratorAction` that hold the spectrum and its
configuration. -/
structure PrimaryGeneratorAction where
  spectrumEnergies : List ℚ
  spectrumIntensities : List ℚ
  cumulativeDistribution : List ℚ
  maxIntensity : ℚ
  spectrumFilename : String
  monochromatic : Bool
  monoEnergy : ℚ
deriving DecidableEq

namespace PrimaryGeneratorAction

/-- The comparator of the `std::sort` call of `InitializeSpectrum` orders the
parsed pairs by `first`; this is the non-strict order it induces. -/
def energyLE (a b : ℚ × ℚ) : Prop := a.1 ≤ b.1

instance : DecidableRel energyLE := fun a b => inferInstanceAs (Decidable (a.1 ≤ b.1))

/-- What the C++ standard guarantees of the call
`std::sort(parsed.begin(), parsed.end(), cmp)`, for a function `stdSort` from
the vector before the call to the vector after it: the result is a
permutation of the input in ascending order of energy.  The relative order of
pairs of equal energy is left open. -/
def StdSort (stdSort : List (ℚ × ℚ) → List (ℚ × ℚ)) : Prop :=
  ∀ parsed, (stdSort parsed).Perm parsed ∧ (stdSort parsed).Pairwise energyLE

/-- The call `std::accumulate(v.begin(), v.end(), init)`. -/
def accumulate (v : List ℚ) (init : ℚ) : ℚ := v.foldl (fun acc x => acc + x) init

/-- The value `*std::max_element(v.begin(), v.end())` of a non-empty vector:
the first largest element. -/
def maxElement : List ℚ → Option ℚ
  | [] => none
  | x :: xs => some (xs.foldl (fun largest y => if largest < y then y else largest) x)

/-- The normalising loop of `InitializeSpectrum` over the remaining
intensities, started with the running value `cumulative`: each intensity is
divided by `sum` in place and added to `cumulative`, which is pushed to
`cumulativeDistribution`.  The result is the normalised intensities and the
pushed values. -/
def normalizeLoop (sum : ℚ) : List ℚ → ℚ → List ℚ × List ℚ
  | [], _ => ([], [])
  | spectrumIntensity :: rest, cumulative =>
    let spectrumIntensity := spectrumIntensity / sum
    let cumulative := cumulative + spectrumIntensity
    let r := normalizeLoop sum rest cumulative
    (spectrumIntensity :: r.1, cumulative :: r.2)

/-- `PrimaryGeneratorAction::InitializeSpectrum`.  `readSpectrum filename` is
the vector `parsed` that the file search and the line parser produce for the
configured `spectrumFilename`: the `(energy, intensity)` pairs of the parseable
lines of the resolved file in file order, empty when no file resolves or
opens.  `stdSort` is the effect of the `std::sort` call on `parsed`.
`Except.error` is the thrown `std::runtime_error`. -/
def InitializeSpectrum (stdSort : List (ℚ × ℚ) → List (ℚ × ℚ))
    (readSpectrum : String → List (ℚ × ℚ)) (s : PrimaryGeneratorAction) :
    Except String PrimaryGeneratorAction :=
  if s.monochromatic then
    Except.ok
      { s with
        spectrumEnergies := [s.monoEnergy]
        spectrumIntensities := [1]
        cumulativeDistribution := [0, 1]
        maxIntensity := 1 }
  else
    let parsed := readSpectrum s.spectrumFilename
    let fileLoaded := !parsed.isEmpty
    if !fileLoaded then Except.error "Failed to load spectrum file"
    else
      let parsed := stdSort parsed
      let spectrumEnergies := parsed.map (fun p => p.1 * eV)
      let spectrumIntensities := parsed.map (fun p => p.2)
      let spectrumEnergies :=
        if spectrumIntensities.isEmpty then [15.2 * keV] else spectrumEnergies
      let spectrumIntensities :=
        if spectrumIntensities.isEmpty then [1] else spectrumIntensities
      let sum := accumulate spectrumIntensities 0
      let filled := spectrumIntensities.map (fun _ => (1 : ℚ))
      let size : ℚ := (spectrumIntensities.length : ℚ)
      let spectrumIntensities := if sum ≤ 0 then filled else spectrumIntensities
      let sum := if sum ≤ 0 then size else sum
      let maxIntensity := (maxElement spectrumIntensities).getD 0
      let r := normalizeLoop sum spectrumIntensities 0
      Except.ok
        { s with
          spectrumEnergies := spectrumEnergies
          spectrumIntensities := r.1
          cumulativeDistribution := 0 :: r.2
          maxIntensity := maxIntensity }

/-- The binary search of `std::lower_bound` over the index range
`[first, first + len)` of `v`: the range is halved until it is empty. -/
def lowerBoundLoop (v : List ℚ) (val : ℚ) (first len : Nat) : Nat :=
  if 0 < len then
    if v.getD (first + len / 2) 0 < val then
      lowerBoundLoop v val (first + len / 2 + 1) (len - len / 2 - 1)
    else
      lowerBoundLoop v val first (len / 2)
  else first
termination_by len
decreasing_by all_goals omega

/-- The index `std::distance(v.begin(), std::lower_bound(v.begin(), v.end(), val))`. -/
def lowerBound (v : List ℚ) (val : ℚ) : Nat := lowerBoundLoop v val 0 v.length

/-- The width of `size_t`. -/
def sizeBits : Nat := 64

/-- The value `spectrumEnergies.size() - 1` of `SampleEnergyFromSpectrum`,
computed in `size_t`. -/
def sampleSizeMinus1 (s : PrimaryGeneratorAction) : Nat :=
  (s.spectrumEnergies.length + 2 ^ sizeBits - 1) % 2 ^ sizeBits

/-- The first part of `SampleEnergyFromSpectrum`: the value of the local
`index` when the test `index < spectrumEnergies.size() - 1` is reached, after
the binary search, the decrement and the clamp to `size() - 1`. -/
def sampleIndex (s : PrimaryGeneratorAction) (random : ℚ) : Nat :=
  let index := lowerBound s.cumulativeDistribution random
  let index := if index > 0 then index - 1 else index
  let size := s.spectrumEnergies.length
  let sizeMinus1 := (size + 2 ^ sizeBits - 1) % 2 ^ sizeBits
  if index ≥ size then sizeMinus1 else index

/-- `PrimaryGeneratorAction::SampleEnergyFromSpectrum`, with the value `random`
of `G4UniformRand()` as argument: the bin `sampleIndex` is selected, and the
energy is interpolated when the bin is below `size() - 1`.  The result is
`none` when an element access is outside its vector, and when the divisor of
the interpolation is zero, in which case the quotient and the returned
`G4double` are not numbers. -/
def SampleEnergyFromSpectrum (s : PrimaryGeneratorAction) (random : ℚ) : Option ℚ :=
  let index := sampleIndex s random
  if index < sampleSizeMinus1 s then do
    let c0 ← s.cumulativeDistribution[index]?
    let c1 ← s.cumulativeDistribution[index + 1]?
    let e0 ← s.spectrumEnergies[index]?
    let e1 ← s.spectrumEnergies[index + 1]?
    let f ← divide (random - c0) (c1 - c0)
    pure (e0 + f * (e1 - e0))
  else s.spectrumEnergies[index]?

end PrimaryGeneratorAction

/-! ## The mean of the sampled energy -/

/-- The mean of the energy that `SampleEnergyFromSpectrum` returns over the
`n` equidistant values `u = k / n`, `k < n`, of `[0, 1)`.  The mean over `u`
uniform in `[0, 1)` is the limit of these means for `n → ∞` (the Riemann
integral of the sampled energy). -/
def PrimaryGeneratorAction.gridMean (s : PrimaryGeneratorAction) (n : Nat) : ℚ :=
  (∑ k ∈ Finset.range n,
      (PrimaryGeneratorAction.SampleEnergyFromSpectrum s ((k : ℚ) / (n : ℚ))).getD 0) / (n : ℚ)

/-! ## Binary STL files and the Geant4 solids -/

/-- The largest finite `float`, `FLT_MAX = (2^24 - 1) * 2^104`. -/
def FLT_MAX : ℚ := (2 ^ 24 - 1) * 2 ^ 104

/-- The largest finite `double`, `DBL_MAX = (2^53 - 1) * 2^971` of `<cfloat>`. -/
def DBL_MAX : ℚ := (2 ^ 53 - 1) * 2 ^ 971

/-- A rational is in the range of the finite `float` values. -/
def InFloatRange (c : ℚ) : Prop := -FLT_MAX ≤ c ∧ c ≤ FLT_MAX

/-- `G4ThreeVector`. -/
structure G4ThreeVector where
  x : ℚ
  y : ℚ
  z : ℚ
deriving DecidableEq

/-- One 50-byte triangle record of a binary STL file, decoded: the normal, the
three vertices (nine `float` values) and the attribute byte count. -/
structure STLTriangle where
  normal : G4ThreeVector
  v1 : G4ThreeVector
  v2 : G4ThreeVector
  v3 : G4ThreeVector
  attributeByteCount : Nat
deriving DecidableEq

/-- A binary STL file that can be opened, decoded: the `uint32_t` triangle
count that follows the 80-byte header and the complete triangle records that
follow the count, in file order. -/
structure STLFile where
  numTriangles : Nat
  triangles : List STLTriangle
deriving DecidableEq

/-- The raw vertices of the complete records of a file, three per record, in
file order. -/
def STLFile.vertices (file : STLFile) : List G4ThreeVector :=
  file.triangles.flatMap (fun t => [t.v1, t.v2, t.v3])

/-- The loop `for (uint32_t i = 0; i < numTriangles; i++)` over the input
stream shared by `GetSTLMeshCenter` and `LoadSTLSolid`: each turn reads the next
record and applies `body` to it; once the stream is exhausted the reads fail
and the turn sees the indeterminate contents `uninit` of its buffers. -/
def forEachRecord {α : Type} (uninit : STLTriangle) (body : α → STLTriangle → α) :
    Nat → List STLTriangle → α → α
  | 0, _, acc => acc
  | n + 1, [], acc => forEachRecord uninit body n [] (body acc uninit)
  | n + 1, t :: rest, acc => forEachRecord uninit body n rest (body acc t)

/-- `G4TriangularFacet(vertex1, vertex2, vertex3, ABSOLUTE)`. -/
structure G4TriangularFacet where
  vertex1 : G4ThreeVector
  vertex2 : G4ThreeVector
  vertex3 : G4ThreeVector
deriving DecidableEq

/-- `G4TessellatedSolid`: its name, the facets added to it in order, and the
closed flag. -/
structure G4TessellatedSolid where
  name : String
  facets : List G4TriangularFacet
  solidClosed : Bool
deriving DecidableEq

namespace G4TessellatedSolid

/-- Modelled from the spec: `G4TessellatedSolid::AddFacet` of the Geant4
library, "append a facet to the solid". -/
def AddFacet (solid : G4TessellatedSolid) (facet : G4TriangularFacet) : G4TessellatedSolid :=
  { solid with facets := solid.facets ++ [facet] }

/-- Modelled from the spec: `G4TessellatedSolid::SetSolidClosed` of the Geant4
library, "mark the solid closed". -/
def SetSolidClosed (solid : G4TessellatedSolid) (flag : Bool) : G4TessellatedSolid :=
  { solid with solidClosed := flag }

/-- The signed volume of the tetrahedron spanned by the origin and a facet,
times six: the triple product `vertex1 · (vertex2 × vertex3)`. -/
def tripleProduct (f : G4TriangularFacet) : ℚ :=
  f.vertex1.x * (f.vertex2.y * f.vertex3.z - f.vertex2.z * f.vertex3.y)
    + f.vertex1.y * (f.vertex2.z * f.vertex3.x - f.vertex2.x * f.vertex3.z)
    + f.vertex1.z * (f.vertex2.x * f.vertex3.y - f.vertex2.y * f.vertex3.x)

/-- Modelled from the spec: `G4TessellatedSolid::GetCubicVolume` of the Geant4
library, "facet-based integration (the cached value equals the solid's internal
signed-volume decomposition, expected non-negative for a closed,
outward-oriented mesh)": the sum over the facets of the signed volumes of the
tetrahedra they span with the origin. -/
def GetCubicVolume (solid : G4TessellatedSolid) : ℚ :=
  (solid.facets.map tripleProduct).sum / 6

end G4TessellatedSolid

/-- What the code takes from its host: the binary STL files that can be opened,
by path (`none` when `std::ifstream` fails to open the path); the indeterminate
buffer contents seen by a failed read; the value of
`G4SubtractionSolid::GetCubicVolume` for the subtraction of the second solid
from the first; whether `G4RunManager::GetRunManager()` is non-null. -/
structure Host where
  files : String → Option STLFile
  uninit : STLTriangle
  subtractionVolume : G4TessellatedSolid → G4TessellatedSolid → ℚ
  runManager : Bool

/-! ## `DetectorConstruction` -/

/-- The data members of `DetectorConstruction` that the geometry build reads
and writes: the selected insect and the names of the physical volumes placed in
the world volume by `G4PVPlacement`, in placement order.  The write-only
bookkeeping map `meshLogicalVolumes` is left out. -/
structure DetectorConstruction where
  selectedInsect : String
  placed : List String
deriving DecidableEq

namespace DetectorConstruction

/-- The six locals `minX … maxZ` of `GetSTLMeshCenter`. -/
structure BoundingBox where
  minX : ℚ
  minY : ℚ
  minZ : ℚ
  maxX : ℚ
  maxY : ℚ
  maxZ : ℚ
deriving DecidableEq

/-- One turn of the loop `for (int j = 0; j < 3; ++j)` of `GetSTLMeshCenter`
for the vertex `(x, y, z)`. -/
def checkVertex (b : BoundingBox) (v : G4ThreeVector) : BoundingBox :=
  let x := v.x
  let y := v.y
  let z := v.z
  let minX := if x < b.minX then x else b.minX
  let maxX := if x > b.maxX then x else b.maxX
  let minY := if y < b.minY then y else b.minY
  let maxY := if y > b.maxY then y else b.maxY
  let minZ := if z < b.minZ then z else b.minZ
  let maxZ := if z > b.maxZ then z else b.maxZ
  { minX := minX, minY := minY, minZ := minZ, maxX := maxX, maxY := maxY, maxZ := maxZ }

/-- One turn of the triangle loop of `GetSTLMeshCenter`: the three vertices of
the record are checked in order. -/
def checkTriangle (b : BoundingBox) (t : STLTriangle) : BoundingBox :=
  checkVertex (checkVertex (checkVertex b t.v1) t.v2) t.v3

/-- `DetectorConstruction::GetSTLMeshCenter(filename)`. -/
def GetSTLMeshCenter (host : Host) (filename : String) : G4ThreeVector :=
  match host.files filename with
  | none => { x := 0, y := 0, z := 0 }
  | some file =>
    let numTriangles := file.numTriangles
    if numTriangles = 0 then { x := 0, y := 0, z := 0 }
    else
      let start : BoundingBox :=
        { minX := DBL_MAX, minY := DBL_MAX, minZ := DBL_MAX,
          maxX := -DBL_MAX, maxY := -DBL_MAX, maxZ := -DBL_MAX }
      let b := forEachRecord host.uninit checkTriangle numTriangles file.triangles start
      { x := (b.minX + b.maxX) / 2, y := (b.minY + b.maxY) / 2, z := (b.minZ + b.maxZ) / 2 }

/-- The call `s.find(pat)` of `std::string` on the characters of `s` from
position `pos` on: the first position at which `pat` occurs, `none` for
`npos`. -/
def findFrom (pat : List Char) : List Char → Nat → Option Nat
  | [], pos => if pat = [] then some pos else none
  | c :: cs, pos =>
    if pat.isPrefixOf (c :: cs) then some pos else findFrom pat cs (pos + 1)

/-- The name under which `LoadSTLSolid` stores the volume: `name`, cut at the
position that `name.find("_solid")` returns when it is not `npos`. -/
def volumeNameOf (name : String) : String :=
  match findFrom "_solid".data name.data 0 with
  | some pos => String.mk (name.data.take pos)
  | none => name

/-- The vertex `((v[0] - offset.x()) * mm * scaleFactor, …)` that `LoadSTLSolid`
builds from a raw vertex. -/
def offsetVertex (v : G4ThreeVector) (scaleFactor : ℚ) (offset : G4ThreeVector) :
    G4ThreeVector :=
  { x := (v.x - offset.x) * mm * scaleFactor
    y := (v.y - offset.y) * mm * scaleFactor
    z := (v.z - offset.z) * mm * scaleFactor }

/-- The facet that one turn of the triangle loop of `LoadSTLSolid` builds from
the record it has read. -/
def facetOf (scaleFactor : ℚ) (offset : G4ThreeVector) (t : STLTriangle) : G4TriangularFacet :=
  let vertex1 := offsetVertex t.v1 scaleFactor offset
  let vertex2 := offsetVertex t.v2 scaleFactor offset
  let vertex3 := offsetVertex t.v3 scaleFactor offset
  { vertex1 := vertex1, vertex2 := vertex2, vertex3 := vertex3 }

/-- One turn of the triangle loop of `LoadSTLSolid`: the facet of the three
offset vertices is added to the solid. -/
def addTriangle (scaleFactor : ℚ) (offset : G4ThreeVector) (solid : G4TessellatedSolid)
    (t : STLTriangle) : G4TessellatedSolid :=
  solid.AddFacet (facetOf scaleFactor offset t)

/-- `DetectorConstruction::LoadSTLSolid(filename, name, scaleFactor, offset)`:
the returned solid (`none` for `nullptr`) and the static state of
`SteppingAction` after the call. -/
def LoadSTLSolid (host : Host) (g : SteppingAction) (filename name : String)
    (scaleFactor : ℚ) (offset : G4ThreeVector) : Option G4TessellatedSolid × SteppingAction :=
  match host.files filename with
  | none => (none, g)
  | some file =>
    let numTriangles := file.numTriangles
    let solid : G4TessellatedSolid := { name := name, facets := [], solidClosed := false }
    let solid :=
      forEachRecord host.uninit (addTriangle scaleFactor offset) numTriangles file.triangles solid
    let solid := solid.SetSolidClosed true
    let volume := solid.GetCubicVolume
    let volumeName := volumeNameOf name
    (some solid, g.setVolume volumeName volume)

/-- `DetectorConstruction::SetSelectedInsect(name)`: the object after the call
and whether `ReinitializeGeometry` was called on the run manager. -/
def SetSelectedInsect (host : Host) (det : DetectorConstruction) (name : String) :
    DetectorConstruction × Bool :=
  if name ≠ "drosophila" ∧ name ≠ "leptopilina" ∧ name ≠ "sitophilus" then (det, false)
  else if det.selectedInsect = name then (det, false)
  else
    let det := { det with selectedInsect := name }
    if host.runManager then (det, true) else (det, false)

/-- `DetectorConstruction::GetSelectedInsect()`. -/
def GetSelectedInsect (det : DetectorConstruction) : String := det.selectedInsect

/-- The local map `insectFiles` of `ConstructMeshes`, read with `operator[]`:
an absent key yields the empty string. -/
def insectFiles (name : String) : String :=
  if name = "drosophila" then "meshes/drosophila.stl"
  else if name = "leptopilina" then "meshes/leptopilina.stl"
  else if name = "sitophilus" then "meshes/sitophilus.stl"
  else ""

/-- The local map `knownVolumes` of `ConstructMeshes`, read with `operator[]`:
`0.0 * mm3` for the three insects, and the value-initialised `0.0` for an
absent key. -/
def knownVolumes (name : String) : ℚ :=
  if name = "drosophila" then 0 * mm3
  else if name = "leptopilina" then 0 * mm3
  else if name = "sitophilus" then 0 * mm3
  else 0

/-- The placement `new G4PVPlacement(…, name, worldLogical, …)`. -/
def place (det : DetectorConstruction) (name : String) : DetectorConstruction :=
  { det with placed := det.placed ++ [name] }

/-- `DetectorConstruction::ConstructMeshes()`: the static state of
`SteppingAction` and the object after the call. -/
def ConstructMeshes (host : Host) (g : SteppingAction) (det : DetectorConstruction) :
    SteppingAction × DetectorConstruction :=
  let referenceOffset := GetSTLMeshCenter host "meshes/100_EtOH.stl"
  let insectFile := insectFiles det.selectedInsect
  let r := LoadSTLSolid host g insectFile (det.selectedInsect ++ "_solid") 10 referenceOffset
  match r.1 with
  | none => (r.2, det)
  | some insectSolid =>
    let g := r.2
    let g :=
      if knownVolumes det.selectedInsect > 0 then
        g.setVolume det.selectedInsect (knownVolumes det.selectedInsect)
      else g
    let det := place det det.selectedInsect
    let r := LoadSTLSolid host g "meshes/100_EtOH.stl" "Ethanol_solid" 10 referenceOffset
    let g := r.2
    let (g, det) :=
      match r.1 with
      | some ethanolSolid =>
        let det := place det "Ethanol"
        let ethanolSubVolume := host.subtractionVolume ethanolSolid insectSolid
        (g.setVolume "Ethanol" ethanolSubVolume, det)
      | none => (g, det)
    let r := LoadSTLSolid host g "meshes/tube.stl" "Tube_solid" 10 referenceOffset
    let g := r.2
    let det :=
      match r.1 with
      | some _ => place det "Tube"
      | none => det
    (g, det)

/-- `DetectorConstruction::Construct()`: a new world volume, into which
`ConstructMeshes` places the meshes. -/
def Construct (host : Host) (g : SteppingAction) (det : DetectorConstruction) :
    SteppingAction × DetectorConstruction :=
  ConstructMeshes host g { det with placed := [] }

end DetectorConstruction

/-! ## Spectrum setters, the selected bin and the reference sampler -/

namespace PrimaryGeneratorAction

/-- `PrimaryGeneratorAction::SetSpectrumFilename(filename)`: the file name is
stored, the three vectors are cleared and `InitializeSpectrum` is run. -/
def SetSpectrumFilename (stdSort : List (ℚ × ℚ) → List (ℚ × ℚ))
    (readSpectrum : String → List (ℚ × ℚ)) (s : PrimaryGeneratorAction)
    (filename : String) : Except String PrimaryGeneratorAction :=
  let s := { s with spectrumFilename := filename }
  let s := { s with spectrumEnergies := [], spectrumIntensities := [],
                    cumulativeDistribution := [] }
  InitializeSpectrum stdSort readSpectrum s

/-- `PrimaryGeneratorAction::SetMonochromatic(mono)`: `monochromatic = mono`. -/
def SetMonochromatic (s : PrimaryGeneratorAction) (mono : Bool) : PrimaryGeneratorAction :=
  { s with monochromatic := mono }

/-- `PrimaryGeneratorAction::SetMonoEnergy(e)`: `monoEnergy = e`. -/
def SetMonoEnergy (s : PrimaryGeneratorAction) (e : ℚ) : PrimaryGeneratorAction :=
  { s with monoEnergy := e }

/-- The smallest index `i` with `cumulative[i] ≥ u`, found by a scan from the
front; the length of the list when there is none. -/
def leastIndexGE : List ℚ → ℚ → Nat
  | [], _ => 0
  | c :: cs, u => if c ≥ u then 0 else leastIndexGE cs u + 1

/-- The reference sampler, in the words of the specification: `i0` is the
smallest index with `cumulative[i0] ≥ u`; `i` is `i0 - 1` if `i0 > 0`, else 0,
clamped to `N - 1`; if `i < N - 1` the result is the linear interpolation
between `energies[i]` and `energies[i + 1]` by the position of `u` in
`[cumulative[i], cumulative[i + 1]]`, otherwise it is `energies[N - 1]`.  The
result is `none` when an index is outside its array or the position is a
quotient with divisor zero. -/
def referenceSample (energies cumulative : List ℚ) (u : ℚ) : Option ℚ :=
  let N := energies.length
  let i0 := leastIndexGE cumulative u
  let i := if i0 > 0 then i0 - 1 else 0
  let i := min i (N - 1)
  if i < N - 1 then do
    let c0 ← cumulative[i]?
    let c1 ← cumulative[i + 1]?
    let e0 ← energies[i]?
    let e1 ← energies[i + 1]?
    let f ← divide (u - c0) (c1 - c0)
    pure (e0 + f * (e1 - e0))
  else energies[N - 1]?

/-- The bin that the reference sampler selects. -/
def referenceBin (energies cumulative : List ℚ) (u : ℚ) : Nat :=
  let N := energies.length
  let i0 := leastIndexGE cumulative u
  let i := if i0 > 0 then i0 - 1 else 0
  min i (N - 1)

/-- The invariant of a spectrum table with `N ≥ 1` bins whose size fits
`size_t`: `cumulative` has `N + 1` elements, is non-decreasing, starts at 0 and
ends at 1, and the energies are ascending. -/
structure ValidTable (s : PrimaryGeneratorAction) : Prop where
  bins : 1 ≤ s.spectrumEnergies.length
  fits : s.spectrumEnergies.length < 2 ^ sizeBits
  lengthCumulative : s.cumulativeDistribution.length = s.spectrumEnergies.length + 1
  sortedCumulative : s.cumulativeDistribution.Pairwise (· ≤ ·)
  first : s.cumulativeDistribution[0]? = some 0
  last : s.cumulativeDistribution[s.spectrumEnergies.length]? = some 1
  sortedEnergies : s.spectrumEnergies.Pairwise (· ≤ ·)

end PrimaryGeneratorAction

/-! ## Example inputs -/

/-- A generator in polychromatic mode with no spectrum built yet. -/
def exampleGenerator : PrimaryGeneratorAction :=
  { spectrumEnergies := []
    spectrumIntensities := []
    cumulativeDistribution := []
    maxIntensity := 0
    spectrumFilename := "two_bins.txt"
    monochromatic := false
    monoEnergy := 15.2 * keV }

/-- One function that meets `StdSort`: the stable insertion sort by energy.  It
stands for the `std::sort` call in the example runs. -/
def stableSort (parsed : List (ℚ × ℚ)) : List (ℚ × ℚ) :=
  parsed.insertionSort PrimaryGeneratorAction.energyLE

/-- A spectrum source whose file lists 2000 eV with intensity 3 before 1000 eV
with intensity 1. -/
def exampleSpectrum : String → List (ℚ × ℚ) := fun _ => [(2000, 3), (1000, 1)]

/-- A spectrum source whose file lists the two bins `1000 eV` with intensity
`0.25` and `2000 eV` with intensity `0.75`. -/
def twoBinSpectrum : String → List (ℚ × ℚ) := fun _ => [(1000, 0.25), (2000, 0.75)]

/-- The record of a triangle with the given vertices, a zero normal and no
attribute bytes. -/
def triangleRecord (a b c : G4ThreeVector) : STLTriangle :=
  { normal := { x := 0, y := 0, z := 0 }, v1 := a, v2 := b, v3 := c, attributeByteCount := 0 }

/-- The mesh file of the single triangle `(0,0,0), (2,0,0), (0,2,0)`. -/
def triangleFile : STLFile :=
  { numTriangles := 1
    triangles := [triangleRecord ⟨0, 0, 0⟩ ⟨2, 0, 0⟩ ⟨0, 2, 0⟩] }

/-- The mesh file of the unit tetrahedron with corners `(0,0,0), (1,0,0),
(0,1,0), (0,0,1)`, its four facets oriented outwards. -/
def tetrahedronFile : STLFile :=
  { numTriangles := 4
    triangles :=
      [triangleRecord ⟨0, 0, 0⟩ ⟨0, 1, 0⟩ ⟨1, 0, 0⟩,
       triangleRecord ⟨0, 0, 0⟩ ⟨1, 0, 0⟩ ⟨0, 0, 1⟩,
       triangleRecord ⟨0, 0, 0⟩ ⟨0, 0, 1⟩ ⟨0, 1, 0⟩,
       triangleRecord ⟨1, 0, 0⟩ ⟨0, 1, 0⟩ ⟨0, 0, 1⟩] }

/-- The mesh file of the same tetrahedron with its four facets oriented
inwards. -/
def inwardTetrahedronFile : STLFile :=
  { numTriangles := 4
    triangles :=
      [triangleRecord ⟨0, 0, 0⟩ ⟨1, 0, 0⟩ ⟨0, 1, 0⟩,
       triangleRecord ⟨0, 0, 0⟩ ⟨0, 0, 1⟩ ⟨1, 0, 0⟩,
       triangleRecord ⟨0, 0, 0⟩ ⟨0, 1, 0⟩ ⟨0, 0, 1⟩,
       triangleRecord ⟨1, 0, 0⟩ ⟨0, 0, 1⟩ ⟨0, 1, 0⟩] }

/-- A host in which the Ethanol, Tube, drosophila and leptopilina meshes are the
tetrahedron file, the sitophilus mesh cannot be opened, and three more files
exist: a single triangle, an inward-oriented tetrahedron and a file with a
triangle count of 0. -/
def exampleHost : Host :=
  { files := fun path =>
      if path = "meshes/100_EtOH.stl" then some tetrahedronFile
      else if path = "meshes/tube.stl" then some tetrahedronFile
      else if path = "meshes/drosophila.stl" then some tetrahedronFile
      else if path = "meshes/leptopilina.stl" then some tetrahedronFile
      else if path = "meshes/triangle.stl" then some triangleFile
      else if path = "meshes/inward.stl" then some inwardTetrahedronFile
      else if path = "meshes/empty.stl" then some { numTriangles := 0, triangles := [] }
      else none
    uninit := triangleRecord ⟨0, 0, 0⟩ ⟨0, 0, 0⟩ ⟨0, 0, 0⟩
    subtractionVolume := fun outer inner => outer.GetCubicVolume - inner.GetCubicVolume
    runManager := true }

/-- The example host without the Tube mesh: `meshes/tube.stl` cannot be
opened. -/
def tubelessHost : Host :=
  { exampleHost with
    files := fun path => if path = "meshes/tube.stl" then none else exampleHost.files path }

/-- A spectrum source whose file lists `1000 eV` with intensity `-1` before
`2000 eV` with intensity 3. -/
def negativeSpectrum : String → List (ℚ × ℚ) := fun _ => [(1000, -1), (2000, 3)]

/-- A spectrum source that yields no parsed pair: a resolved file without a
parseable energy line. -/
def emptySpectrum : String → List (ℚ × ℚ) := fun _ => []

/-! ## Lemmas on maps -/

namespace StdMap

theorem find_assign_self (m : StdMap) (k : String) (v : ℚ) :
    find (assign m k v) k = some v := by
  induction m with
  | nil => simp [assign, find]
  | cons p rest ih =>
    obtain ⟨k', v'⟩ := p
    by_cases h1 : k < k'
    · simp [assign, find, h1]
    · by_cases h2 : k = k'
      · simp [assign, find, h1, h2]
      · have h3 : ¬ k' = k := fun h => h2 h.symm
        simp [assign, find, h1, h2, h3, ih]

theorem find_assign_of_ne (m : StdMap) (k j : String) (v : ℚ) (hj : j ≠ k) :
    find (assign m k v) j = find m j := by
  have hk : ¬ k = j := fun h => hj h.symm
  induction m with
  | nil => simp [assign, find, hk]
  | cons p rest ih =>
    obtain ⟨k', v'⟩ := p
    by_cases h1 : k < k'
    · simp [assign, find, h1, hk]
    · by_cases h2 : k = k'
      · subst h2
        simp [assign, find, hk]
      · simp [assign, find, h1, h2, ih]

theorem keys_assign_subset (m : StdMap) (k j : String) (v : ℚ) :
    j ∈ keys (assign m k v) ↔ j = k ∨ j ∈ keys m := by
  induction m with
  | nil => simp [assign, keys]
  | cons p rest ih =>
    obtain ⟨k', v'⟩ := p
    by_cases h1 : k < k'
    · simp [assign, keys, h1]
    · by_cases h2 : k = k'
      · subst h2
        simp [assign, keys]
      · simp only [keys] at ih
        simp [assign, keys, h1, h2, ih]
        tauto

theorem find_eq_none_iff (m : StdMap) (k : String) : find m k = none ↔ k ∉ keys m := by
  induction m with
  | nil => simp [find, keys]
  | cons p rest ih =>
    obtain ⟨k', v'⟩ := p
    simp only [keys] at ih
    by_cases h : k' = k
    · simp [find, keys, h]
    · have h' : ¬ k = k' := fun e => h e.symm
      simp [find, keys, h, h', ih]

theorem WF_nil : WF [] := by simp [WF, keys]

theorem WF_assign (m : StdMap) (k : String) (v : ℚ) (h : WF m) : WF (assign m k v) := by
  induction m with
  | nil => simp [assign, WF, keys]
  | cons p rest ih =>
    obtain ⟨k', v'⟩ := p
    have hrest : WF rest := by
      simp only [WF, keys, List.map_cons, List.pairwise_cons] at h ⊢
      exact h.2
    have hhead : ∀ x ∈ keys rest, k' < x := by
      simp only [WF, keys, List.map_cons, List.pairwise_cons] at h ⊢
      exact h.1
    by_cases h1 : k < k'
    · simp only [assign, h1, if_true, WF, keys, List.map_cons, List.pairwise_cons]
      refine ⟨?_, ?_⟩
      · intro x hx
        rcases List.mem_cons.1 hx with rfl | hx
        · exact h1
        · exact lt_trans h1 (hhead x hx)
      · simpa [WF, keys] using h
    · by_cases h2 : k = k'
      · subst h2
        simpa [assign, WF, keys] using h
      · have h3 : k' < k := lt_of_le_of_ne (not_lt.1 h1) (fun e => h2 e.symm)
        simp only [assign, h1, h2, if_false, WF, keys, List.map_cons, List.pairwise_cons]
        refine ⟨?_, ih hrest⟩
        intro x hx
        rcases (keys_assign_subset rest k x v).1 hx with rfl | hx
        · exact h3
        · exact hhead x hx

end StdMap

/-! ## Lemmas on the dose ledger and the report -/

open StdMap SteppingAction RunAction

theorem reportRow_eq (nEvents : Int) (photonsPerSecond : ℚ) (doseMap : StdMap)
    (entry : String × ℚ) :
    reportRow nEvents photonsPerSecond doseMap entry
      = { volName := entry.1
          volume := entry.2 / mm3
          density := densityOf entry.1 * 1e3
          energyDep := (doseMap.find entry.1).getD 0
          dose :=
            if entry.2 * densityOf entry.1 > 0 then
              (doseMap.find entry.1).getD 0 * 1.602e-10 / (entry.2 * densityOf entry.1)
            else 0
          dosePerEvent :=
            if entry.2 * densityOf entry.1 > 0 then
              (doseMap.find entry.1).getD 0 * 1.602e-10 / (entry.2 * densityOf entry.1)
                / (nEvents : ℚ)
            else 0
          doseRate :=
            if entry.2 * densityOf entry.1 > 0 then
              (doseMap.find entry.1).getD 0 * 1.602e-10 / (entry.2 * densityOf entry.1)
                / (nEvents : ℚ) * photonsPerSecond
            else 0 } := by
  unfold reportRow reportRowWith
  by_cases hm : entry.2 * densityOf entry.1 > 0 <;>
    cases hf : doseMap.find entry.1 <;> simp [hm, hf, Id.run]

theorem reportRowChecked_eq (nEvents : Int) (pps : ℚ) (doseMap : StdMap) (entry : String × ℚ)
    (hn : nEvents ≠ 0) :
    reportRowChecked nEvents pps doseMap entry = some (reportRow nEvents pps doseMap entry) := by
  have hn2 : (nEvents : ℚ) ≠ 0 := by exact_mod_cast hn
  have hmm : mm3 ≠ 0 := by norm_num [mm3, mm]
  unfold reportRowChecked reportRow reportRowWith
  by_cases hm : entry.2 * densityOf entry.1 > 0
  · have hm2 : entry.2 * densityOf entry.1 ≠ 0 := ne_of_gt hm
    simp [divide, hm, hm2, hn2, hmm, Id.run]
  · simp [divide, hm, hmm, Id.run]

theorem Ethanol_lt_Tube : ("Ethanol" : String) < "Tube" := by
  rw [String.lt_iff_toList_lt]; decide

theorem setVolume_WF (g : SteppingAction) (name : String) (volume : ℚ)
    (h : g.volumeMap.WF) : (g.setVolume name volume).volumeMap.WF :=
  StdMap.WF_assign g.volumeMap name volume h

theorem densityOf_pos (volName : String) : 0 < densityOf volName := by
  unfold densityOf
  split_ifs <;> norm_num

theorem EndOfRunAction_rows (canOpen : String → Bool)
    (outputPrefix insectName : String) (nEvents : Int)
    (photonFlux : ℚ) (g : SteppingAction) (hn : nEvents ≠ 0) :
    ∃ rep, EndOfRunAction canOpen outputPrefix insectName nEvents photonFlux g = some rep ∧
      rep.rows = g.volumeMap.map (reportRow nEvents (photonFlux * beamArea) g.doseMap) := by
  simp [EndOfRunAction, hn, getDoseMap, getVolumeMap]

theorem forall₂_map_same {α β : Type} (R : α → β → Prop) (f : α → β) (l : List α)
    (h : ∀ a ∈ l, R a (f a)) : List.Forall₂ R l (l.map f) := by
  induction l with
  | nil => simp
  | cons a l ih =>
    simp only [List.map_cons, List.forall₂_cons]
    exact ⟨h a (List.mem_cons_self _ _), ih (fun b hb => h b (List.mem_cons_of_mem _ hb))⟩

theorem reportRow_dose (nEvents : Int) (pps : ℚ) (doseMap : StdMap) (entry : String × ℚ)
    (hm : 0 < massOf entry.1 entry.2) :
    (reportRow nEvents pps doseMap entry).dose
      = (doseMap.find entry.1).getD 0 * 1.602e-10 / massOf entry.1 entry.2 := by
  have hm2 : entry.2 * densityOf entry.1 > 0 := hm
  cases hf : doseMap.find entry.1 <;> simp [reportRow_eq, massOf, hm2, hf]

/-- C1 (amended). -/

theorem reportRow_perEvent (nEvents : Int) (pps : ℚ) (doseMap : StdMap) (entry : String × ℚ)
    (hm : 0 < massOf entry.1 entry.2) :
    (reportRow nEvents pps doseMap entry).dosePerEvent
        = (reportRow nEvents pps doseMap entry).dose / (nEvents : ℚ) ∧
      (reportRow nEvents pps doseMap entry).doseRate
        = (reportRow nEvents pps doseMap entry).dosePerEvent * pps := by
  have hm2 : entry.2 * densityOf entry.1 > 0 := hm
  simp [reportRow_eq, hm2]

theorem reportRow_unhit (nEvents : Int) (pps : ℚ) (doseMap : StdMap) (entry : String × ℚ)
    (hf : doseMap.find entry.1 = none) :
    (reportRow nEvents pps doseMap entry).energyDep = 0 ∧
      (reportRow nEvents pps doseMap entry).dose = 0 ∧
      (reportRow nEvents pps doseMap entry).dosePerEvent = 0 ∧
      (reportRow nEvents pps doseMap entry).doseRate = 0 := by
  by_cases hm : entry.2 * densityOf entry.1 > 0 <;> simp [reportRow_eq, hm, hf]

theorem reportRow_congr (nEvents : Int) (pps : ℚ) (d1 d2 : StdMap) (entry : String × ℚ)
    (h : d1.find entry.1 = d2.find entry.1) :
    reportRow nEvents pps d1 entry = reportRow nEvents pps d2 entry := by
  simp only [reportRow_eq, h]

theorem UserSteppingAction_deposit (g : SteppingAction) (e : ℚ) (v : String)
    (he : 0 < e) (hv : v ≠ "World") :
    g.UserSteppingAction ⟨e, some v⟩ = { g with doseMap := StdMap.addAssign g.doseMap v e } := by
  simp [UserSteppingAction, not_le.2 he, hv]

theorem UserSteppingAction_volumeMap (g : SteppingAction) (step : G4Step) :
    (g.UserSteppingAction step).volumeMap = g.volumeMap := by
  unfold UserSteppingAction
  simp only
  split_ifs
  · rfl
  · cases step.volume with
    | none => rfl
    | some name =>
      simp only
      split_ifs <;> rfl

theorem UserSteppingAction_mono (g : SteppingAction) (step : G4Step) (k : String) (x : ℚ)
    (hx : g.doseMap.find k = some x) :
    ∃ y, (g.UserSteppingAction step).doseMap.find k = some y ∧ x ≤ y := by
  by_cases he : step.totalEnergyDeposit ≤ 0
  · exact ⟨x, by simp [UserSteppingAction, he, hx], le_refl x⟩
  · obtain ⟨e, vol⟩ := step
    cases vol with
    | none => exact ⟨x, by simp [UserSteppingAction, hx], le_refl x⟩
    | some v =>
      by_cases hv : v = "World"
      · exact ⟨x, by simp [UserSteppingAction, hv, hx], le_refl x⟩
      · have hpos : 0 < e := not_le.1 he
        rw [UserSteppingAction_deposit g e v hpos hv]
        by_cases hk : k = v
        · subst hk
          refine ⟨x + e, ?_, by linarith⟩
          simp [StdMap.addAssign, StdMap.find_assign_self, hx]
        · refine ⟨x, ?_, le_refl x⟩
          simp [StdMap.addAssign, StdMap.find_assign_of_ne _ _ _ _ hk, hx]

theorem foldl_UserSteppingAction_mono (steps : List G4Step) (g : SteppingAction) (k : String)
    (x : ℚ) (hx : g.doseMap.find k = some x) :
    ∃ y, (steps.foldl UserSteppingAction g).doseMap.find k = some y ∧ x ≤ y := by
  induction steps generalizing g x with
  | nil => exact ⟨x, hx, le_refl x⟩
  | cons step steps ih =>
    obtain ⟨y, hy, hxy⟩ := UserSteppingAction_mono g step k x hx
    obtain ⟨z, hz, hyz⟩ := ih (g.UserSteppingAction step) y hy
    exact ⟨z, hz, le_trans hxy hyz⟩

/-! ## Lemmas on the spectrum table -/

namespace PrimaryGeneratorAction

theorem accumulate_eq_sum (v : List ℚ) (init : ℚ) : accumulate v init = init + v.sum := by
  induction v generalizing init with
  | nil => simp [accumulate]
  | cons x xs ih =>
    have h := ih (init + x)
    simp only [accumulate, List.foldl_cons, List.sum_cons] at h ⊢
    rw [h]; ring

theorem normalizeLoop_fst (sum : ℚ) (xs : List ℚ) (c : ℚ) :
    (normalizeLoop sum xs c).1 = xs.map (fun x => x / sum) := by
  induction xs generalizing c with
  | nil => rfl
  | cons x xs ih => simp [normalizeLoop, ih]

theorem normalizeLoop_snd_length (sum : ℚ) (xs : List ℚ) (c : ℚ) :
    (normalizeLoop sum xs c).2.length = xs.length := by
  induction xs generalizing c with
  | nil => rfl
  | cons x xs ih => simp [normalizeLoop, ih]

theorem normalizeLoop_getElem (sum : ℚ) (xs : List ℚ) (c : ℚ) (k : Nat) (hk : k ≤ xs.length) :
    (c :: (normalizeLoop sum xs c).2)[k]?
      = some (c + ((xs.map (fun x => x / sum)).take k).sum) := by
  induction xs generalizing c k with
  | nil =>
    have : k = 0 := by simpa using hk
    subst this
    simp
  | cons x xs ih =>
    cases k with
    | zero => simp
    | succ k =>
      have hk2 : k ≤ xs.length := by simpa using hk
      have h := ih (c + x / sum) k hk2
      simp only [normalizeLoop, List.getElem?_cons_succ, List.map_cons, List.take_succ_cons,
        List.sum_cons]
      rw [h]
      congr 1
      ring

theorem normalizeLoop_lower (sum : ℚ) (xs : List ℚ) (c : ℚ) (hsum : 0 < sum)
    (hx : ∀ x ∈ xs, 0 ≤ x) : ∀ y ∈ (normalizeLoop sum xs c).2, c ≤ y := by
  induction xs generalizing c with
  | nil => intro y hy; simp [normalizeLoop] at hy
  | cons x xs ih =>
    intro y hy
    have hx0 : 0 ≤ x / sum := div_nonneg (hx x (List.mem_cons_self _ _)) (le_of_lt hsum)
    simp only [normalizeLoop, List.mem_cons] at hy
    rcases hy with rfl | hy
    · linarith
    · have := ih (c + x / sum) (fun z hz => hx z (List.mem_cons_of_mem _ hz)) y hy
      linarith

theorem normalizeLoop_pairwise (sum : ℚ) (xs : List ℚ) (c : ℚ) (hsum : 0 < sum)
    (hx : ∀ x ∈ xs, 0 ≤ x) : (c :: (normalizeLoop sum xs c).2).Pairwise (· ≤ ·) := by
  induction xs generalizing c with
  | nil => simp [normalizeLoop]
  | cons x xs ih =>
    rw [List.pairwise_cons]
    refine ⟨normalizeLoop_lower sum (x :: xs) c hsum hx, ?_⟩
    simpa [normalizeLoop] using
      ih (c + x / sum) (fun z hz => hx z (List.mem_cons_of_mem _ hz))

theorem sum_map_div (xs : List ℚ) (d : ℚ) : (xs.map (fun x => x / d)).sum = xs.sum / d := by
  induction xs with
  | nil => simp
  | cons x xs ih => simp [ih, add_div]

theorem stableSort_stdSort : StdSort stableSort := by
  intro parsed
  haveI : IsTotal (ℚ × ℚ) energyLE := ⟨fun a b => le_total a.1 b.1⟩
  haveI : IsTrans (ℚ × ℚ) energyLE := ⟨fun a b c hab hbc => le_trans (α := ℚ) hab hbc⟩
  exact ⟨List.perm_insertionSort energyLE parsed, List.sorted_insertionSort energyLE parsed⟩

theorem stdSort_intensity_sum {stdSort : List (ℚ × ℚ) → List (ℚ × ℚ)} (hsort : StdSort stdSort)
    (parsed : List (ℚ × ℚ)) :
    ((stdSort parsed).map Prod.snd).sum = (parsed.map Prod.snd).sum :=
  ((hsort parsed).1.map Prod.snd).sum_eq

theorem stdSort_length {stdSort : List (ℚ × ℚ) → List (ℚ × ℚ)} (hsort : StdSort stdSort)
    (parsed : List (ℚ × ℚ)) : (stdSort parsed).length = parsed.length :=
  (hsort parsed).1.length_eq

theorem stdSort_energies_sorted {stdSort : List (ℚ × ℚ) → List (ℚ × ℚ)}
    (hsort : StdSort stdSort) (parsed : List (ℚ × ℚ)) :
    ((stdSort parsed).map (fun p => p.1 * eV)).Pairwise (· ≤ ·) := by
  rw [List.pairwise_map]
  refine (hsort parsed).2.imp ?_
  intro a b hab
  have heV : (0 : ℚ) ≤ eV := by norm_num [eV]
  exact mul_le_mul_of_nonneg_right hab heV

theorem stdSort_ne_nil {stdSort : List (ℚ × ℚ) → List (ℚ × ℚ)} (hsort : StdSort stdSort)
    (parsed : List (ℚ × ℚ)) (hne : parsed ≠ []) : stdSort parsed ≠ [] := by
  intro h
  have := stdSort_length hsort parsed
  rw [h] at this
  exact hne (List.length_eq_zero.1 this.symm)

theorem lowerBound_unit_table (u : ℚ) (h1 : u < 1) :
    lowerBound [0, 1] u = if 0 < u then 1 else 0 := by
  have h1' : ¬ (1 : ℚ) < u := not_lt.2 (le_of_lt h1)
  unfold lowerBound
  rw [lowerBoundLoop]
  simp [h1']
  rw [lowerBoundLoop]
  simp
  split_ifs
  · rw [lowerBoundLoop]; simp
  · rw [lowerBoundLoop]; simp


theorem InitializeSpectrum_poly (stdSort : List (ℚ × ℚ) → List (ℚ × ℚ))
    (hsort : StdSort stdSort) (readSpectrum : String → List (ℚ × ℚ))
    (s : PrimaryGeneratorAction) (hpoly : s.monochromatic = false)
    (hne : readSpectrum s.spectrumFilename ≠ [])
    (hsum : 0 < ((readSpectrum s.spectrumFilename).map Prod.snd).sum) :
    InitializeSpectrum stdSort readSpectrum s = Except.ok
      { s with
        spectrumEnergies := (stdSort (readSpectrum s.spectrumFilename)).map (fun p => p.1 * eV)
        spectrumIntensities :=
          (normalizeLoop ((readSpectrum s.spectrumFilename).map Prod.snd).sum
            ((stdSort (readSpectrum s.spectrumFilename)).map Prod.snd) 0).1
        cumulativeDistribution :=
          0 :: (normalizeLoop ((readSpectrum s.spectrumFilename).map Prod.snd).sum
            ((stdSort (readSpectrum s.spectrumFilename)).map Prod.snd) 0).2
        maxIntensity :=
          (maxElement ((stdSort (readSpectrum s.spectrumFilename)).map Prod.snd)).getD 0 } := by
  have hsorted : stdSort (readSpectrum s.spectrumFilename) ≠ [] := by
    intro h
    have := stdSort_length hsort (readSpectrum s.spectrumFilename)
    rw [h] at this
    exact hne (List.length_eq_zero.1 this.symm)
  have hmap : (fun p : ℚ × ℚ => p.2) = Prod.snd := rfl
  have hacc : accumulate ((stdSort (readSpectrum s.spectrumFilename)).map Prod.snd) 0
      = ((readSpectrum s.spectrumFilename).map Prod.snd).sum := by
    rw [accumulate_eq_sum, stdSort_intensity_sum hsort, zero_add]
  have hnot : ¬ ((readSpectrum s.spectrumFilename).map Prod.snd).sum ≤ 0 := not_le.2 hsum
  simp [InitializeSpectrum, hpoly, hne, hsorted, hmap, hacc, hnot]

end PrimaryGeneratorAction

open PrimaryGeneratorAction

/-! ## Lemmas on mesh files and the geometry build -/

namespace DetectorConstruction

theorem forEachRecord_complete {α : Type} (uninit : STLTriangle) (body : α → STLTriangle → α)
    (l : List STLTriangle) (acc : α) :
    forEachRecord uninit body l.length l acc = l.foldl body acc := by
  induction l generalizing acc with
  | nil => rfl
  | cons t rest ih => simp [forEachRecord, ih]

theorem foldl_addTriangle (scaleFactor : ℚ) (offset : G4ThreeVector) (l : List STLTriangle)
    (solid : G4TessellatedSolid) :
    l.foldl (addTriangle scaleFactor offset) solid
      = { solid with facets := solid.facets ++ l.map (facetOf scaleFactor offset) } := by
  induction l generalizing solid with
  | nil => simp
  | cons t rest ih =>
    simp [ih, addTriangle, G4TessellatedSolid.AddFacet]

theorem LoadSTLSolid_complete (host : Host) (g : SteppingAction) (filename name : String)
    (scaleFactor : ℚ) (offset : G4ThreeVector) (file : STLFile)
    (hopen : host.files filename = some file)
    (hcomplete : file.triangles.length = file.numTriangles) :
    LoadSTLSolid host g filename name scaleFactor offset
      = (some { name := name
                facets := file.triangles.map (facetOf scaleFactor offset)
                solidClosed := true },
         g.setVolume (volumeNameOf name)
           (G4TessellatedSolid.GetCubicVolume
             { name := name
               facets := file.triangles.map (facetOf scaleFactor offset)
               solidClosed := true })) := by
  simp only [LoadSTLSolid, hopen, ← hcomplete, forEachRecord_complete, foldl_addTriangle,
    G4TessellatedSolid.SetSolidClosed, List.nil_append]

theorem FLT_MAX_lt_DBL_MAX : FLT_MAX < DBL_MAX := by
  norm_num [FLT_MAX, DBL_MAX]

theorem foldl_checkTriangle (l : List STLTriangle) (b : BoundingBox) :
    l.foldl checkTriangle b
      = (l.flatMap (fun t => [t.v1, t.v2, t.v3])).foldl checkVertex b := by
  induction l generalizing b with
  | nil => rfl
  | cons t rest ih => simp [List.flatMap_cons, List.foldl_append, ih, checkTriangle]

/-- The running minimum of the comparisons `if (x < min) min = x`. -/
theorem foldl_lower (xs : List ℚ) (m : ℚ) :
    (∀ x ∈ xs, xs.foldl (fun lo x => if x < lo then x else lo) m ≤ x) ∧
      xs.foldl (fun lo x => if x < lo then x else lo) m ≤ m ∧
      (xs.foldl (fun lo x => if x < lo then x else lo) m = m ∨
        xs.foldl (fun lo x => if x < lo then x else lo) m ∈ xs) := by
  induction xs generalizing m with
  | nil => simp
  | cons a rest ih =>
    obtain ⟨h1, h2, h3⟩ := ih (if a < m then a else m)
    simp only [List.foldl_cons]
    refine ⟨?_, ?_, ?_⟩
    · intro x hx
      rcases List.mem_cons.1 hx with rfl | hx
      · refine le_trans h2 ?_
        split_ifs with h
        · exact le_refl _
        · exact not_lt.1 h
      · exact h1 x hx
    · refine le_trans h2 ?_
      split_ifs with h
      · exact le_of_lt h
      · exact le_refl _
    · rcases h3 with h3 | h3
      · by_cases h : a < m
        · right
          rw [h3, if_pos h]
          exact List.mem_cons_self _ _
        · left
          rw [h3, if_neg h]
      · exact Or.inr (List.mem_cons_of_mem _ h3)

theorem foldl_upper (xs : List ℚ) (m : ℚ) :
    (∀ x ∈ xs, x ≤ xs.foldl (fun hi x => if x > hi then x else hi) m) ∧
      m ≤ xs.foldl (fun hi x => if x > hi then x else hi) m ∧
      (xs.foldl (fun hi x => if x > hi then x else hi) m = m ∨
        xs.foldl (fun hi x => if x > hi then x else hi) m ∈ xs) := by
  induction xs generalizing m with
  | nil => simp
  | cons a rest ih =>
    obtain ⟨h1, h2, h3⟩ := ih (if a > m then a else m)
    simp only [List.foldl_cons]
    refine ⟨?_, ?_, ?_⟩
    · intro x hx
      rcases List.mem_cons.1 hx with rfl | hx
      · refine le_trans ?_ h2
        split_ifs with h
        · exact le_refl _
        · exact not_lt.1 h
      · exact h1 x hx
    · refine le_trans ?_ h2
      split_ifs with h
      · exact le_of_lt h
      · exact le_refl _
    · rcases h3 with h3 | h3
      · by_cases h : a > m
        · right
          rw [h3, if_pos h]
          exact List.mem_cons_self _ _
        · left
          rw [h3, if_neg h]
      · exact Or.inr (List.mem_cons_of_mem _ h3)

/-- The midpoint that the comparisons of `GetSTLMeshCenter` yield on one axis,
for a non-empty list of coordinates in the range of `float`. -/
theorem midpoint_of_range (xs : List ℚ) (hne : xs ≠ []) (hr : ∀ x ∈ xs, InFloatRange x) :
    ∃ lo hi, lo ∈ xs ∧ hi ∈ xs ∧ (∀ x ∈ xs, lo ≤ x ∧ x ≤ hi) ∧
      (xs.foldl (fun lo x => if x < lo then x else lo) DBL_MAX
        + xs.foldl (fun hi x => if x > hi then x else hi) (-DBL_MAX)) / 2 = (lo + hi) / 2 := by
  obtain ⟨l1, l2, l3⟩ := foldl_lower xs DBL_MAX
  obtain ⟨u1, u2, u3⟩ := foldl_upper xs (-DBL_MAX)
  obtain ⟨a, ha⟩ := List.exists_mem_of_ne_nil xs hne
  have hF := FLT_MAX_lt_DBL_MAX
  have hlo : xs.foldl (fun lo x => if x < lo then x else lo) DBL_MAX ∈ xs := by
    rcases l3 with h | h
    · have h1 := l1 a ha
      have h2 := (hr a ha).2
      rw [h] at h1
      linarith
    · exact h
  have hhi : xs.foldl (fun hi x => if x > hi then x else hi) (-DBL_MAX) ∈ xs := by
    rcases u3 with h | h
    · have h1 := u1 a ha
      have h2 := (hr a ha).1
      rw [h] at h1
      linarith
    · exact h
  exact ⟨_, _, hlo, hhi, fun x hx => ⟨l1 x hx, u1 x hx⟩, rfl⟩

theorem foldl_checkVertex (vs : List G4ThreeVector) (b : BoundingBox) :
    vs.foldl checkVertex b
      = { minX := (vs.map G4ThreeVector.x).foldl (fun lo x => if x < lo then x else lo) b.minX
          minY := (vs.map G4ThreeVector.y).foldl (fun lo x => if x < lo then x else lo) b.minY
          minZ := (vs.map G4ThreeVector.z).foldl (fun lo x => if x < lo then x else lo) b.minZ
          maxX := (vs.map G4ThreeVector.x).foldl (fun hi x => if x > hi then x else hi) b.maxX
          maxY := (vs.map G4ThreeVector.y).foldl (fun hi x => if x > hi then x else hi) b.maxY
          maxZ := (vs.map G4ThreeVector.z).foldl (fun hi x => if x > hi then x else hi) b.maxZ } := by
  induction vs generalizing b with
  | nil => rfl
  | cons v rest ih => simp [ih, checkVertex]

theorem GetSTLMeshCenter_complete (host : Host) (filename : String) (file : STLFile)
    (hopen : host.files filename = some file) (hN : 0 < file.numTriangles)
    (hcomplete : file.triangles.length = file.numTriangles) :
    GetSTLMeshCenter host filename
      = { x := ((file.vertices.map G4ThreeVector.x).foldl
                  (fun lo x => if x < lo then x else lo) DBL_MAX
                + (file.vertices.map G4ThreeVector.x).foldl
                  (fun hi x => if x > hi then x else hi) (-DBL_MAX)) / 2
          y := ((file.vertices.map G4ThreeVector.y).foldl
                  (fun lo x => if x < lo then x else lo) DBL_MAX
                + (file.vertices.map G4ThreeVector.y).foldl
                  (fun hi x => if x > hi then x else hi) (-DBL_MAX)) / 2
          z := ((file.vertices.map G4ThreeVector.z).foldl
                  (fun lo x => if x < lo then x else lo) DBL_MAX
                + (file.vertices.map G4ThreeVector.z).foldl
                  (fun hi x => if x > hi then x else hi) (-DBL_MAX)) / 2 } := by
  have h0 : file.numTriangles ≠ 0 := by omega
  simp only [GetSTLMeshCenter, hopen, h0, if_false]
  rw [← hcomplete, forEachRecord_complete, foldl_checkTriangle, foldl_checkVertex]
  rfl

theorem LoadSTLSolid_unopened (host : Host) (g : SteppingAction) (filename name : String)
    (scaleFactor : ℚ) (offset : G4ThreeVector) (hopen : host.files filename = none) :
    LoadSTLSolid host g filename name scaleFactor offset = (none, g) := by
  simp only [LoadSTLSolid, hopen]

theorem LoadSTLSolid_opened (host : Host) (g : SteppingAction) (filename name : String)
    (scaleFactor : ℚ) (offset : G4ThreeVector) (file : STLFile)
    (hopen : host.files filename = some file) :
    LoadSTLSolid host g filename name scaleFactor offset
      = (some ((forEachRecord host.uninit (addTriangle scaleFactor offset) file.numTriangles
                file.triangles { name := name, facets := [], solidClosed := false }).SetSolidClosed
                true),
         g.setVolume (volumeNameOf name)
           ((forEachRecord host.uninit (addTriangle scaleFactor offset) file.numTriangles
                file.triangles { name := name, facets := [], solidClosed := false }).SetSolidClosed
                true).GetCubicVolume) := by
  simp only [LoadSTLSolid, hopen]

theorem knownVolumes_eq_zero (name : String) : knownVolumes name = 0 := by
  unfold knownVolumes
  split_ifs <;> simp

theorem volumeNameOf_Ethanol : volumeNameOf "Ethanol_solid" = "Ethanol" := by decide

theorem volumeNameOf_Tube : volumeNameOf "Tube_solid" = "Tube" := by decide

theorem volumeNameOf_drosophila : volumeNameOf "drosophila_solid" = "drosophila" := by decide

theorem volumeNameOf_leptopilina : volumeNameOf "leptopilina_solid" = "leptopilina" := by decide

end DetectorConstruction

open DetectorConstruction

/-! ## Lemmas on the example host -/

theorem exampleHost_center :
    GetSTLMeshCenter exampleHost "meshes/100_EtOH.stl" = ⟨1 / 2, 1 / 2, 1 / 2⟩ := by
  rw [GetSTLMeshCenter_complete exampleHost "meshes/100_EtOH.stl" tetrahedronFile rfl
    (by decide) rfl]
  simp [STLFile.vertices, tetrahedronFile, triangleRecord]
  norm_num [DBL_MAX]

theorem exampleHost_first_build :
    Construct exampleHost ⟨[], []⟩ ⟨"drosophila", []⟩
      = (⟨[], [("Ethanol", 0), ("Tube", 500 / 3), ("drosophila", 500 / 3)]⟩,
         ⟨"drosophila", ["drosophila", "Ethanol", "Tube"]⟩) := by
  have hi : exampleHost.files (insectFiles "drosophila") = some tetrahedronFile := rfl
  have he : exampleHost.files "meshes/100_EtOH.stl" = some tetrahedronFile := rfl
  have ht : exampleHost.files "meshes/tube.stl" = some tetrahedronFile := rfl
  have happ : ("drosophila" : String) ++ "_solid" = "drosophila_solid" := by decide
  simp only [Construct, ConstructMeshes, happ,
    LoadSTLSolid_complete exampleHost _ _ _ _ _ tetrahedronFile hi rfl,
    LoadSTLSolid_complete exampleHost _ _ _ _ _ tetrahedronFile he rfl,
    LoadSTLSolid_complete exampleHost _ _ _ _ _ tetrahedronFile ht rfl,
    knownVolumes_eq_zero, gt_iff_lt, lt_self_iff_false, if_false, place, volumeNameOf_Tube,
    volumeNameOf_Ethanol, volumeNameOf_drosophila, exampleHost_center]
  simp [SteppingAction.setVolume, StdMap.assign, exampleHost, G4TessellatedSolid.GetCubicVolume,
    G4TessellatedSolid.tripleProduct, tetrahedronFile, triangleRecord, facetOf, offsetVertex, mm]
  norm_num
  rw [if_neg (by decide), if_pos (by decide)]

theorem exampleHost_second_build :
    Construct exampleHost ⟨[], [("Ethanol", 0), ("Tube", 500 / 3), ("drosophila", 500 / 3)]⟩
        ⟨"leptopilina", ["drosophila", "Ethanol", "Tube"]⟩
      = (⟨[], [("Ethanol", 0), ("Tube", 500 / 3), ("drosophila", 500 / 3),
               ("leptopilina", 500 / 3)]⟩,
         ⟨"leptopilina", ["leptopilina", "Ethanol", "Tube"]⟩) := by
  have hi : exampleHost.files (insectFiles "leptopilina") = some tetrahedronFile := rfl
  have he : exampleHost.files "meshes/100_EtOH.stl" = some tetrahedronFile := rfl
  have ht : exampleHost.files "meshes/tube.stl" = some tetrahedronFile := rfl
  have happ : ("leptopilina" : String) ++ "_solid" = "leptopilina_solid" := by decide
  simp only [Construct, ConstructMeshes, happ,
    LoadSTLSolid_complete exampleHost _ _ _ _ _ tetrahedronFile hi rfl,
    LoadSTLSolid_complete exampleHost _ _ _ _ _ tetrahedronFile he rfl,
    LoadSTLSolid_complete exampleHost _ _ _ _ _ tetrahedronFile ht rfl,
    knownVolumes_eq_zero, gt_iff_lt, lt_self_iff_false, if_false, place, volumeNameOf_Tube,
    volumeNameOf_Ethanol, volumeNameOf_leptopilina, exampleHost_center]
  simp [SteppingAction.setVolume, StdMap.assign, exampleHost, G4TessellatedSolid.GetCubicVolume,
    G4TessellatedSolid.tripleProduct, tetrahedronFile, triangleRecord, facetOf, offsetVertex, mm]
  norm_num
  rw [if_neg (by decide), if_neg (by decide)]

/-! ## Lemmas on the two-bin spectrum -/

namespace PrimaryGeneratorAction

/-- The table that `InitializeSpectrum` builds from the two-bin spectrum. -/
theorem twoBin_table :
    InitializeSpectrum stableSort twoBinSpectrum exampleGenerator
      = Except.ok
          { exampleGenerator with
            spectrumEnergies := [1 * keV, 2 * keV]
            spectrumIntensities := [1 / 4, 3 / 4]
            cumulativeDistribution := [0, 1 / 4, 1]
            maxIntensity := 3 / 4 } := by
  have hsum : 0 < ((twoBinSpectrum exampleGenerator.spectrumFilename).map Prod.snd).sum := by
    norm_num [twoBinSpectrum]
  rw [InitializeSpectrum_poly stableSort stableSort_stdSort twoBinSpectrum exampleGenerator rfl (by simp [twoBinSpectrum]) hsum]
  simp [twoBinSpectrum, stableSort, List.insertionSort, List.orderedInsert, energyLE,
    normalizeLoop, maxElement, exampleGenerator, eV, keV]
  norm_num

theorem lowerBound_twoBin (u : ℚ) (h1 : u < 1) :
    lowerBound [0, 1 / 4, 1] u = if 1 / 4 < u then 2 else if 0 < u then 1 else 0 := by
  have h1' : ¬ (1 : ℚ) < u := not_lt.2 (le_of_lt h1)
  unfold lowerBound
  rw [lowerBoundLoop]
  simp
  by_cases hq : (4 : ℚ)⁻¹ < u
  · simp [hq]
    rw [lowerBoundLoop]
    simp [h1']
    rw [lowerBoundLoop]
    simp
  · simp [hq]
    rw [lowerBoundLoop]
    simp
    by_cases h0 : 0 < u
    · simp [h0]
      rw [lowerBoundLoop]
      simp
    · simp [h0]
      rw [lowerBoundLoop]
      simp

theorem sample_twoBin (s : PrimaryGeneratorAction)
    (he : s.spectrumEnergies = [1 * keV, 2 * keV])
    (hc : s.cumulativeDistribution = [0, 1 / 4, 1]) (u : ℚ) (h0 : 0 ≤ u) (h1 : u < 1) :
    SampleEnergyFromSpectrum s u
      = some (if u ≤ 1 / 4 then (1 + 4 * u) * keV else 2 * keV) := by
  have hwrap : (2 + 2 ^ sizeBits - 1) % 2 ^ sizeBits = 1 := by norm_num [sizeBits]
  by_cases hq : (1 : ℚ) / 4 < u
  · have hq' : ¬ u ≤ 1 / 4 := not_le.2 hq
    have hlb : lowerBound [0, 1 / 4, 1] u = 2 := by
      rw [lowerBound_twoBin u h1, if_pos hq]
    simp only [SampleEnergyFromSpectrum, sampleIndex, sampleSizeMinus1, he, hc, hlb, List.length_cons,
      List.length_singleton, List.length_nil, hwrap, if_neg hq']
    simp
  · have hq' : u ≤ 1 / 4 := not_lt.1 hq
    by_cases hz : 0 < u
    · have hlb : lowerBound [0, 1 / 4, 1] u = 1 := by
        rw [lowerBound_twoBin u h1, if_neg hq, if_pos hz]
      simp only [SampleEnergyFromSpectrum, sampleIndex, sampleSizeMinus1, he, hc, hlb, List.length_cons,
        List.length_singleton, List.length_nil, hwrap, if_pos hq']
      simp [divide]
      ring
    · have hlb : lowerBound [0, 1 / 4, 1] u = 0 := by
        rw [lowerBound_twoBin u h1, if_neg hq, if_neg hz]
      have : u = 0 := le_antisymm (not_lt.1 hz) h0
      subst this
      simp only [SampleEnergyFromSpectrum, sampleIndex, sampleSizeMinus1, he, hc, hlb, List.length_cons,
        List.length_singleton, List.length_nil, hwrap]
      simp [divide]

theorem sum_rising (J : ℕ) (c : ℚ) :
    ∑ k ∈ Finset.range (J + 1), (1 + 4 * ((k : ℚ) * c)) * keV
      = keV * ((J + 1) + 2 * J * (J + 1) * c) := by
  induction J with
  | zero => simp
  | succ J ih =>
    rw [Finset.sum_range_succ, ih]
    push_cast
    ring

theorem gridMean_twoBin_sum (s : PrimaryGeneratorAction)
    (he : s.spectrumEnergies = [1 * keV, 2 * keV])
    (hc : s.cumulativeDistribution = [0, 1 / 4, 1]) (n : ℕ) (hn : 1 ≤ n) :
    gridMean s n
      = keV * (((n / 4 : ℕ) : ℚ) + 1 + 2 * ((n / 4 : ℕ) : ℚ) * (((n / 4 : ℕ) : ℚ) + 1) / n
          + 2 * ((n : ℚ) - ((n / 4 : ℕ) : ℚ) - 1)) / n := by
  have hnq : (0 : ℚ) < n := by exact_mod_cast hn
  have hterm : ∀ k ∈ Finset.range n,
      (SampleEnergyFromSpectrum s ((k : ℚ) / (n : ℚ))).getD 0
        = if k ≤ n / 4 then (1 + 4 * ((k : ℚ) * (n : ℚ)⁻¹)) * keV else 2 * keV := by
    intro k hk
    have hkn : k < n := Finset.mem_range.1 hk
    have h0 : (0 : ℚ) ≤ (k : ℚ) / n := div_nonneg (Nat.cast_nonneg k) (le_of_lt hnq)
    have h1 : (k : ℚ) / n < 1 := by
      rw [div_lt_one hnq]
      exact_mod_cast hkn
    rw [sample_twoBin s he hc _ h0 h1]
    have hiff : ((k : ℚ) / n ≤ 1 / 4) ↔ k ≤ n / 4 := by
      rw [div_le_iff₀ hnq, Nat.le_div_iff_mul_le (by norm_num)]
      constructor
      · intro h
        have : ((k * 4 : ℕ) : ℚ) ≤ (n : ℕ) := by
          push_cast
          linarith
        exact_mod_cast this
      · intro h
        have : ((k * 4 : ℕ) : ℚ) ≤ (n : ℕ) := by exact_mod_cast h
        push_cast at this
        linarith
    by_cases hk4 : k ≤ n / 4
    · rw [if_pos (hiff.2 hk4), if_pos hk4, div_eq_mul_inv]
      rfl
    · have : ¬ ((k : ℚ) / n ≤ 1 / 4) := fun h => hk4 (hiff.1 h)
      rw [if_neg this, if_neg hk4]
      rfl
  have hj : n / 4 + 1 ≤ n := by omega
  have hsplit : n = (n / 4 + 1) + (n - (n / 4 + 1)) := by omega
  have hadd : ∀ f : ℕ → ℚ, ∑ k ∈ Finset.range n, f k
      = ∑ k ∈ Finset.range (n / 4 + 1), f k
        + ∑ i ∈ Finset.range (n - (n / 4 + 1)), f (n / 4 + 1 + i) := by
    intro f
    rw [← Finset.sum_range_add, ← hsplit]
  unfold gridMean
  rw [Finset.sum_congr rfl hterm, hadd]
  have hfirst : ∑ k ∈ Finset.range (n / 4 + 1),
      (if k ≤ n / 4 then (1 + 4 * ((k : ℚ) * (n : ℚ)⁻¹)) * keV else 2 * keV)
        = ∑ k ∈ Finset.range (n / 4 + 1), (1 + 4 * ((k : ℚ) * (n : ℚ)⁻¹)) * keV := by
    apply Finset.sum_congr rfl
    intro k hk
    have : k ≤ n / 4 := Nat.lt_succ_iff.1 (Finset.mem_range.1 hk)
    simp [this]
  have hsecond : ∑ i ∈ Finset.range (n - (n / 4 + 1)),
      (if n / 4 + 1 + i ≤ n / 4 then (1 + 4 * (((n / 4 + 1 + i : ℕ) : ℚ) * (n : ℚ)⁻¹)) * keV
        else 2 * keV)
        = ((n - (n / 4 + 1) : ℕ) : ℚ) * (2 * keV) := by
    rw [Finset.sum_congr rfl (g := fun _ => 2 * keV)]
    · simp
    · intro i _
      have : ¬ (n / 4 + 1 + i ≤ n / 4) := by omega
      simp [this]
  rw [hfirst, hsecond, sum_rising, Nat.cast_sub hj]
  push_cast
  field_simp
  ring

theorem gridMean_twoBin_multiple (s : PrimaryGeneratorAction)
    (he : s.spectrumEnergies = [1 * keV, 2 * keV])
    (hc : s.cumulativeDistribution = [0, 1 / 4, 1]) (m : ℕ) (hm : 1 ≤ m) :
    gridMean s (4 * m) = (15 / 8 - 1 / (8 * (m : ℚ))) * keV := by
  have hmq : (0 : ℚ) < m := by exact_mod_cast hm
  rw [gridMean_twoBin_sum s he hc (4 * m) (by omega)]
  have hdiv : 4 * m / 4 = m := by omega
  rw [hdiv]
  push_cast
  field_simp
  ring

theorem gridMean_twoBin_bound (s : PrimaryGeneratorAction)
    (he : s.spectrumEnergies = [1 * keV, 2 * keV])
    (hc : s.cumulativeDistribution = [0, 1 / 4, 1]) (n : ℕ) (hn : 1 ≤ n) :
    |gridMean s n - 15 / 8 * keV| ≤ keV / n := by
  have hnq : (0 : ℚ) < n := by exact_mod_cast hn
  have hk : (0 : ℚ) < keV := by norm_num [keV]
  have hdm : 4 * (n / 4) + n % 4 = n := Nat.div_add_mod n 4
  have hr : n % 4 < 4 := Nat.mod_lt n (by norm_num)
  have hdmq : 4 * ((n / 4 : ℕ) : ℚ) + ((n % 4 : ℕ) : ℚ) = n := by exact_mod_cast hdm
  have hrq : ((n % 4 : ℕ) : ℚ) ≤ 3 := by
    have : n % 4 ≤ 3 := by omega
    exact_mod_cast this
  have hr0 : (0 : ℚ) ≤ ((n % 4 : ℕ) : ℚ) := Nat.cast_nonneg _
  have hj0 : (0 : ℚ) ≤ ((n / 4 : ℕ) : ℚ) := Nat.cast_nonneg _
  rw [gridMean_twoBin_sum s he hc n hn]
  generalize ((n / 4 : ℕ) : ℚ) = j at *
  generalize ((n % 4 : ℕ) : ℚ) = r at *
  have hform : keV * (j + 1 + 2 * j * (j + 1) / n + 2 * ((n : ℚ) - j - 1)) / n - 15 / 8 * keV
      = - (keV * (16 * j + 8 * r - r ^ 2) / (8 * (n : ℚ) ^ 2)) := by
    rw [← hdmq]
    have h4 : 4 * j + r ≠ 0 := by
      rw [hdmq]
      exact ne_of_gt hnq
    field_simp
    ring
  rw [hform, abs_neg, abs_of_nonneg]
  · rw [div_le_div_iff₀ (by positivity) hnq]
    have h1 : 16 * j + 8 * r - r ^ 2 ≤ 8 * (n : ℚ) := by
      rw [← hdmq]
      nlinarith
    have h2 : keV * (16 * j + 8 * r - r ^ 2) * n ≤ keV * (8 * (n : ℚ)) * n := by
      apply mul_le_mul_of_nonneg_right _ (le_of_lt hnq)
      exact mul_le_mul_of_nonneg_left h1 (le_of_lt hk)
    calc keV * (16 * j + 8 * r - r ^ 2) * n ≤ keV * (8 * (n : ℚ)) * n := h2
      _ = keV * (8 * (n : ℚ) ^ 2) := by ring
  · apply div_nonneg _ (by positivity)
    apply mul_nonneg (le_of_lt hk)
    nlinarith

theorem gridMean_twoBin_tendsto (s : PrimaryGeneratorAction)
    (he : s.spectrumEnergies = [1 * keV, 2 * keV])
    (hc : s.cumulativeDistribution = [0, 1 / 4, 1]) :
    Filter.Tendsto (fun n : ℕ => ((gridMean s n : ℚ) : ℝ)) Filter.atTop
      (nhds (((15 / 8 * keV : ℚ)) : ℝ)) := by
  rw [tendsto_iff_dist_tendsto_zero]
  have hlim : Filter.Tendsto (fun n : ℕ => ((keV : ℚ) : ℝ) / (n : ℝ)) Filter.atTop (nhds 0) :=
    tendsto_const_div_atTop_nhds_zero_nat _
  refine squeeze_zero' (Filter.Eventually.of_forall (fun n => dist_nonneg)) ?_ hlim
  filter_upwards [Filter.eventually_ge_atTop 1] with n hn
  have hb := gridMean_twoBin_bound s he hc n hn
  rw [Real.dist_eq]
  have hcast : (((|gridMean s n - 15 / 8 * keV| : ℚ)) : ℝ) ≤ ((keV / n : ℚ) : ℝ) := by
    exact_mod_cast hb
  push_cast at hcast
  push_cast
  exact hcast

theorem twoBin_integral :
    ∫ x in (0 : ℝ)..1, (if x ≤ 1 / 4 then (1 + 4 * x) * ((keV : ℚ) : ℝ) else 2 * ((keV : ℚ) : ℝ))
      = 15 / 8 * ((keV : ℚ) : ℝ) := by
  have hk : (0 : ℝ) ≤ ((keV : ℚ) : ℝ) := by norm_num [keV]
  have hmono : Monotone
      (fun x : ℝ => if x ≤ 1 / 4 then (1 + 4 * x) * ((keV : ℚ) : ℝ) else 2 * ((keV : ℚ) : ℝ)) := by
    intro a b hab
    simp only
    split_ifs with h1 h2 h2
    · exact mul_le_mul_of_nonneg_right (by linarith) hk
    · exact mul_le_mul_of_nonneg_right (by linarith) hk
    · exact absurd (le_trans hab h2) h1
    · exact le_refl _
  have hleft : ∫ x in (0 : ℝ)..(1 / 4),
      (if x ≤ 1 / 4 then (1 + 4 * x) * ((keV : ℚ) : ℝ) else 2 * ((keV : ℚ) : ℝ))
        = ∫ x in (0 : ℝ)..(1 / 4), (1 + 4 * x) * ((keV : ℚ) : ℝ) := by
    apply intervalIntegral.integral_congr
    intro x hx
    rw [Set.uIcc_of_le (by norm_num)] at hx
    simp only [if_pos hx.2]
  have hright : ∫ x in (1 / 4 : ℝ)..1,
      (if x ≤ 1 / 4 then (1 + 4 * x) * ((keV : ℚ) : ℝ) else 2 * ((keV : ℚ) : ℝ))
        = ∫ _x in (1 / 4 : ℝ)..1, 2 * ((keV : ℚ) : ℝ) := by
    apply intervalIntegral.integral_congr_ae
    refine Filter.Eventually.of_forall (fun x hx => ?_)
    rw [Set.uIoc_of_le (by norm_num)] at hx
    simp only [if_neg (not_le.2 hx.1)]
  rw [← intervalIntegral.integral_add_adjacent_intervals (b := 1 / 4)
    (hmono.intervalIntegrable) (hmono.intervalIntegrable), hleft, hright]
  simp only [intervalIntegral.integral_mul_const, intervalIntegral.integral_const]
  rw [intervalIntegral.integral_add (by simp) (by
    apply Continuous.intervalIntegrable
    continuity)]
  rw [intervalIntegral.integral_const_mul, integral_id]
  simp
  norm_num
  ring

end PrimaryGeneratorAction

/-! ## Lemmas on the checked report row -/

theorem reportRow_zero_mass (nEvents : Int) (pps : ℚ) (doseMap : StdMap) (entry : String × ℚ)
    (hm : massOf entry.1 entry.2 ≤ 0) :
    (reportRow nEvents pps doseMap entry).dose = 0 ∧
      (reportRow nEvents pps doseMap entry).dosePerEvent = 0 ∧
      (reportRow nEvents pps doseMap entry).doseRate = 0 ∧
      ∀ n : Int, reportRowChecked n pps doseMap entry
        = some (reportRow nEvents pps doseMap entry) := by
  have hm2 : ¬ entry.2 * densityOf entry.1 > 0 := not_lt.2 hm
  have hmm : mm3 ≠ 0 := by norm_num [mm3, mm]
  refine ⟨by simp [reportRow_eq, hm2], by simp [reportRow_eq, hm2],
    by simp [reportRow_eq, hm2], ?_⟩
  intro n
  unfold reportRowChecked reportRow reportRowWith
  simp [divide, hm2, hmm, Id.run]

/-! ## Lemmas on the binary search and the sampler -/

namespace PrimaryGeneratorAction

theorem leastIndexGE_le_length (v : List ℚ) (u : ℚ) : leastIndexGE v u ≤ v.length := by
  induction v with
  | nil => simp [leastIndexGE]
  | cons c cs ih =>
    simp only [leastIndexGE]
    split_ifs
    · simp
    · simpa using ih

theorem leastIndexGE_below (v : List ℚ) (u : ℚ) :
    ∀ i, i < leastIndexGE v u → v.getD i 0 < u := by
  induction v with
  | nil => intro i hi; simp [leastIndexGE] at hi
  | cons c cs ih =>
    intro i hi
    simp only [leastIndexGE] at hi
    split_ifs at hi with h
    · omega
    · cases i with
      | zero => simpa using not_le.1 h
      | succ i => simpa using ih i (by omega)

theorem leastIndexGE_at (v : List ℚ) (u : ℚ) (h : leastIndexGE v u < v.length) :
    u ≤ v.getD (leastIndexGE v u) 0 := by
  induction v with
  | nil => simp at h
  | cons c cs ih =>
    simp only [leastIndexGE] at h ⊢
    split_ifs at h ⊢ with hc
    · simpa using hc
    · simpa using ih (by simpa using h)

theorem getD_mono_of_pairwise (v : List ℚ) (hs : v.Pairwise (· ≤ ·)) (i j : Nat) (hij : i ≤ j)
    (hj : j < v.length) : v.getD i 0 ≤ v.getD j 0 := by
  rcases Nat.lt_or_eq_of_le hij with h | h
  · have hi : i < v.length := lt_trans h hj
    rw [List.getD_eq_getElem v 0 hi, List.getD_eq_getElem v 0 hj]
    exact List.pairwise_iff_getElem.1 hs i j hi hj h
  · subst h
    exact le_refl _

theorem lowerBoundLoop_spec (v : List ℚ) (u : ℚ) (hs : v.Pairwise (· ≤ ·)) :
    ∀ (len first : Nat), first + len ≤ v.length →
      (∀ i, i < first → v.getD i 0 < u) →
      (∀ i, first + len ≤ i → i < v.length → u ≤ v.getD i 0) →
      lowerBoundLoop v u first len ≤ v.length ∧
      (∀ i, i < lowerBoundLoop v u first len → v.getD i 0 < u) ∧
      (∀ i, lowerBoundLoop v u first len ≤ i → i < v.length → u ≤ v.getD i 0) := by
  intro len
  induction len using Nat.strong_induction_on with
  | _ len ih =>
    intro first hlen hlow hhigh
    rw [lowerBoundLoop]
    by_cases h0 : 0 < len
    · rw [if_pos h0]
      have hmid : first + len / 2 < v.length := by omega
      by_cases hlt : v.getD (first + len / 2) 0 < u
      · rw [if_pos hlt]
        apply ih (len - len / 2 - 1) (by omega) (first + len / 2 + 1) (by omega)
        · intro i hi
          exact lt_of_le_of_lt (getD_mono_of_pairwise v hs i _ (by omega) hmid) hlt
        · intro i hi hiv
          exact hhigh i (by omega) hiv
      · rw [if_neg hlt]
        apply ih (len / 2) (by omega) first (by omega) hlow
        intro i hi hiv
        exact le_trans (not_lt.1 hlt) (getD_mono_of_pairwise v hs _ i hi hiv)
    · rw [if_neg h0]
      have : len = 0 := by omega
      subst this
      exact ⟨by omega, hlow, fun i hi hiv => hhigh i (by omega) hiv⟩

theorem lowerBound_eq_leastIndexGE (v : List ℚ) (u : ℚ) (hs : v.Pairwise (· ≤ ·)) :
    lowerBound v u = leastIndexGE v u := by
  obtain ⟨h1, h2, h3⟩ := lowerBoundLoop_spec v u hs v.length 0 (by omega)
    (fun i hi => absurd hi (Nat.not_lt_zero i)) (fun i hi hiv => absurd hiv (by omega))
  have hL := leastIndexGE_le_length v u
  unfold lowerBound
  rcases Nat.lt_trichotomy (lowerBoundLoop v u 0 v.length) (leastIndexGE v u) with h | h | h
  · have a := leastIndexGE_below v u _ h
    have b := h3 _ (le_refl _) (by omega)
    exact absurd a (not_lt.2 b)
  · exact h
  · have a := h2 _ h
    have b := leastIndexGE_at v u (by omega)
    exact absurd a (not_lt.2 b)

theorem getElem?_eq_some_getD (v : List ℚ) (i : Nat) (h : i < v.length) :
    v[i]? = some (v.getD i 0) := by
  rw [List.getElem?_eq_getElem h, List.getD_eq_getElem v 0 h]

theorem sampleSizeMinus1_valid (s : PrimaryGeneratorAction) (hv : ValidTable s) :
    sampleSizeMinus1 s = s.spectrumEnergies.length - 1 := by
  have h1 := hv.bins
  have h2 := hv.fits
  unfold sampleSizeMinus1
  generalize 2 ^ sizeBits = P at *
  have : s.spectrumEnergies.length + P - 1 = (s.spectrumEnergies.length - 1) + P := by omega
  rw [this, Nat.add_mod_right, Nat.mod_eq_of_lt (by omega)]

theorem sampleIndex_eq (s : PrimaryGeneratorAction) (hv : ValidTable s) (u : ℚ) :
    sampleIndex s u
      = min (if leastIndexGE s.cumulativeDistribution u > 0
              then leastIndexGE s.cumulativeDistribution u - 1 else 0)
          (s.spectrumEnergies.length - 1) := by
  have h1 := hv.bins
  have hsz := sampleSizeMinus1_valid s hv
  unfold sampleSizeMinus1 at hsz
  simp only [sampleIndex, lowerBound_eq_leastIndexGE _ _ hv.sortedCumulative, hsz]
  split_ifs <;> omega

theorem sampleIndex_lt (s : PrimaryGeneratorAction) (hv : ValidTable s) (u : ℚ) :
    sampleIndex s u < s.spectrumEnergies.length := by
  have h1 := hv.bins
  rw [sampleIndex_eq s hv u]
  omega

theorem divide_of_ne (a b : ℚ) (h : b ≠ 0) : divide a b = some (a / b) := by
  simp [divide, h]

theorem sample_unfold (s : PrimaryGeneratorAction) (u : ℚ) :
    SampleEnergyFromSpectrum s u
      = if sampleIndex s u < sampleSizeMinus1 s then do
          let c0 ← s.cumulativeDistribution[sampleIndex s u]?
          let c1 ← s.cumulativeDistribution[sampleIndex s u + 1]?
          let e0 ← s.spectrumEnergies[sampleIndex s u]?
          let e1 ← s.spectrumEnergies[sampleIndex s u + 1]?
          let f ← divide (u - c0) (c1 - c0)
          pure (e0 + f * (e1 - e0))
        else s.spectrumEnergies[sampleIndex s u]? := rfl

theorem sample_formula (s : PrimaryGeneratorAction) (hv : ValidTable s) (u : ℚ) :
    SampleEnergyFromSpectrum s u
      = if sampleIndex s u + 1 < s.spectrumEnergies.length then
          (divide (u - s.cumulativeDistribution.getD (sampleIndex s u) 0)
            (s.cumulativeDistribution.getD (sampleIndex s u + 1) 0
              - s.cumulativeDistribution.getD (sampleIndex s u) 0)).bind
            (fun f => some (s.spectrumEnergies.getD (sampleIndex s u) 0
              + f * (s.spectrumEnergies.getD (sampleIndex s u + 1) 0
                  - s.spectrumEnergies.getD (sampleIndex s u) 0)))
        else some (s.spectrumEnergies.getD (sampleIndex s u) 0) := by
  have hlt := sampleIndex_lt s hv u
  have hlen := hv.lengthCumulative
  rw [sample_unfold, sampleSizeMinus1_valid s hv]
  by_cases hb : sampleIndex s u + 1 < s.spectrumEnergies.length
  · have hb2 : sampleIndex s u < s.spectrumEnergies.length - 1 := by omega
    rw [if_pos hb2, if_pos hb,
      getElem?_eq_some_getD s.cumulativeDistribution _ (by omega),
      getElem?_eq_some_getD s.cumulativeDistribution _ (by omega),
      getElem?_eq_some_getD s.spectrumEnergies _ hlt,
      getElem?_eq_some_getD s.spectrumEnergies _ hb]
    rfl
  · have hb2 : ¬ sampleIndex s u < s.spectrumEnergies.length - 1 := by omega
    rw [if_neg hb2, if_neg hb, getElem?_eq_some_getD s.spectrumEnergies _ hlt]

theorem reference_eq (s : PrimaryGeneratorAction) (hv : ValidTable s) (u : ℚ) :
    referenceBin s.spectrumEnergies s.cumulativeDistribution u = sampleIndex s u ∧
      referenceSample s.spectrumEnergies s.cumulativeDistribution u
        = SampleEnergyFromSpectrum s u := by
  have hbin : referenceBin s.spectrumEnergies s.cumulativeDistribution u = sampleIndex s u := by
    rw [sampleIndex_eq s hv u]
    rfl
  refine ⟨hbin, ?_⟩
  have hlt := sampleIndex_lt s hv u
  have h1 := hv.bins
  have href : referenceSample s.spectrumEnergies s.cumulativeDistribution u
      = if referenceBin s.spectrumEnergies s.cumulativeDistribution u
            < s.spectrumEnergies.length - 1 then do
          let c0 ← s.cumulativeDistribution[referenceBin s.spectrumEnergies
            s.cumulativeDistribution u]?
          let c1 ← s.cumulativeDistribution[referenceBin s.spectrumEnergies
            s.cumulativeDistribution u + 1]?
          let e0 ← s.spectrumEnergies[referenceBin s.spectrumEnergies
            s.cumulativeDistribution u]?
          let e1 ← s.spectrumEnergies[referenceBin s.spectrumEnergies
            s.cumulativeDistribution u + 1]?
          let f ← divide (u - c0) (c1 - c0)
          pure (e0 + f * (e1 - e0))
        else s.spectrumEnergies[s.spectrumEnergies.length - 1]? := rfl
  rw [href, hbin, sample_unfold, sampleSizeMinus1_valid s hv]
  by_cases hb : sampleIndex s u < s.spectrumEnergies.length - 1
  · rw [if_pos hb, if_pos hb]
  · rw [if_neg hb, if_neg hb]
    have : sampleIndex s u = s.spectrumEnergies.length - 1 := by omega
    rw [this]

theorem sum_map_one (xs : List ℚ) : (xs.map (fun _ => (1 : ℚ))).sum = (xs.length : ℚ) := by
  induction xs with
  | nil => simp
  | cons x xs ih => simp [add_comm]

theorem InitializeSpectrum_table (stdSort : List (ℚ × ℚ) → List (ℚ × ℚ))
    (hsort : StdSort stdSort) (readSpectrum : String → List (ℚ × ℚ))
    (s : PrimaryGeneratorAction) (hpoly : s.monochromatic = false)
    (hne : readSpectrum s.spectrumFilename ≠ []) :
    ∃ (ints : List ℚ) (m : ℚ),
      ints.length = (readSpectrum s.spectrumFilename).length ∧
      0 < ints.sum ∧
      (((∀ p ∈ readSpectrum s.spectrumFilename, 0 ≤ p.2) ∨
          ((readSpectrum s.spectrumFilename).map Prod.snd).sum ≤ 0) → ∀ x ∈ ints, 0 ≤ x) ∧
      (0 < ((readSpectrum s.spectrumFilename).map Prod.snd).sum →
        ints = (stdSort (readSpectrum s.spectrumFilename)).map Prod.snd) ∧
      InitializeSpectrum stdSort readSpectrum s = Except.ok
        { s with
          spectrumEnergies :=
            (stdSort (readSpectrum s.spectrumFilename)).map (fun p => p.1 * eV)
          spectrumIntensities := ints.map (fun x => x / ints.sum)
          cumulativeDistribution := 0 :: (normalizeLoop ints.sum ints 0).2
          maxIntensity := m } := by
  have hsorted := stdSort_ne_nil hsort _ hne
  have hmap : (fun p : ℚ × ℚ => p.2) = Prod.snd := rfl
  have hacc : accumulate ((stdSort (readSpectrum s.spectrumFilename)).map Prod.snd) 0
      = ((readSpectrum s.spectrumFilename).map Prod.snd).sum := by
    rw [accumulate_eq_sum, stdSort_intensity_sum hsort, zero_add]
  by_cases hsum : ((readSpectrum s.spectrumFilename).map Prod.snd).sum ≤ 0
  · refine ⟨((stdSort (readSpectrum s.spectrumFilename)).map Prod.snd).map (fun _ => (1 : ℚ)),
      (maxElement (((stdSort (readSpectrum s.spectrumFilename)).map Prod.snd).map
        (fun _ => (1 : ℚ)))).getD 0, ?_, ?_, ?_, ?_, ?_⟩
    · simp [stdSort_length hsort]
    · rw [sum_map_one]
      have : 0 < (stdSort (readSpectrum s.spectrumFilename)).length :=
        List.length_pos.2 hsorted
      simpa using this
    · intro _ x hx
      simp only [List.mem_map] at hx
      obtain ⟨_, _, rfl⟩ := hx
      norm_num
    · intro h
      exact absurd h (not_lt.2 hsum)
    · rw [sum_map_one]
      simp [InitializeSpectrum, hpoly, hne, hsorted, hmap, hacc, hsum, normalizeLoop_fst]
  · have hpos : 0 < ((readSpectrum s.spectrumFilename).map Prod.snd).sum := not_le.1 hsum
    refine ⟨(stdSort (readSpectrum s.spectrumFilename)).map Prod.snd,
      (maxElement ((stdSort (readSpectrum s.spectrumFilename)).map Prod.snd)).getD 0,
      ?_, ?_, ?_, ?_, ?_⟩
    · simp [stdSort_length hsort]
    · rw [stdSort_intensity_sum hsort]; exact hpos
    · intro h x hx
      rcases h with h | h
      · simp only [List.mem_map] at hx
        obtain ⟨p, hp, rfl⟩ := hx
        exact h p ((hsort _).1.subset hp)
      · exact absurd h hsum
    · intro _; rfl
    · rw [stdSort_intensity_sum hsort, InitializeSpectrum_poly stdSort hsort readSpectrum s hpoly hne hpos,
        normalizeLoop_fst]

theorem InitializeSpectrum_valid (stdSort : List (ℚ × ℚ) → List (ℚ × ℚ))
    (hsort : StdSort stdSort) (readSpectrum : String → List (ℚ × ℚ))
    (s : PrimaryGeneratorAction) (hpoly : s.monochromatic = false)
    (hne : readSpectrum s.spectrumFilename ≠ [])
    (hfit : (readSpectrum s.spectrumFilename).length < 2 ^ sizeBits)
    (hnn : (∀ p ∈ readSpectrum s.spectrumFilename, 0 ≤ p.2) ∨
          ((readSpectrum s.spectrumFilename).map Prod.snd).sum ≤ 0) :
    ∃ t, InitializeSpectrum stdSort readSpectrum s = Except.ok t ∧ ValidTable t ∧
      t.spectrumEnergies.length = (readSpectrum s.spectrumFilename).length := by
  obtain ⟨ints, m, hlen, hpos, hnn2, _, hinit⟩ := InitializeSpectrum_table stdSort hsort readSpectrum s hpoly hne
  refine ⟨_, hinit, ?_, ?_⟩
  · have hN : ((stdSort (readSpectrum s.spectrumFilename)).map (fun p => p.1 * eV)).length
        = (readSpectrum s.spectrumFilename).length := by
      simp [stdSort_length hsort]
    refine ⟨?_, ?_, ?_, ?_, ?_, ?_, ?_⟩
    · show 1 ≤ ((stdSort (readSpectrum s.spectrumFilename)).map (fun p => p.1 * eV)).length
      rw [hN]
      exact List.length_pos.2 hne
    · show ((stdSort (readSpectrum s.spectrumFilename)).map (fun p => p.1 * eV)).length
        < 2 ^ sizeBits
      rw [hN]; exact hfit
    · show (0 :: (normalizeLoop ints.sum ints 0).2).length
        = ((stdSort (readSpectrum s.spectrumFilename)).map (fun p => p.1 * eV)).length + 1
      rw [hN, List.length_cons, normalizeLoop_snd_length, hlen]
    · exact normalizeLoop_pairwise ints.sum ints 0 hpos (hnn2 hnn)
    · simp
    · show (0 :: (normalizeLoop ints.sum ints 0).2)[((stdSort
        (readSpectrum s.spectrumFilename)).map (fun p => p.1 * eV)).length]? = some 1
      rw [hN, ← hlen, normalizeLoop_getElem ints.sum ints 0 ints.length (le_refl _),
        List.take_of_length_le (by simp), sum_map_div, zero_add, div_self (ne_of_gt hpos)]
    · exact stdSort_energies_sorted hsort _
  · simp [stdSort_length hsort]

theorem getD_of_getElem? (v : List ℚ) (i : Nat) (x : ℚ) (h : v[i]? = some x) :
    v.getD i 0 = x := by
  simp [List.getD, h]

theorem leastIndexGE_range (s : PrimaryGeneratorAction) (hv : ValidTable s) (u : ℚ)
    (h0 : 0 < u) (h1 : u ≤ 1) :
    1 ≤ leastIndexGE s.cumulativeDistribution u ∧
      leastIndexGE s.cumulativeDistribution u ≤ s.spectrumEnergies.length := by
  have hlen := hv.lengthCumulative
  have hfirst := getD_of_getElem? _ _ _ hv.first
  have hlast := getD_of_getElem? _ _ _ hv.last
  constructor
  · by_contra hc
    have hz : leastIndexGE s.cumulativeDistribution u = 0 := by omega
    have := leastIndexGE_at s.cumulativeDistribution u (by omega)
    rw [hz, hfirst] at this
    exact absurd h0 (not_lt.2 this)
  · by_contra hc
    have := leastIndexGE_below s.cumulativeDistribution u s.spectrumEnergies.length (by omega)
    rw [hlast] at this
    exact absurd this (not_lt.2 h1)

theorem sampleIndex_pos (s : PrimaryGeneratorAction) (hv : ValidTable s) (u : ℚ)
    (h0 : 0 < u) (h1 : u ≤ 1) :
    sampleIndex s u = leastIndexGE s.cumulativeDistribution u - 1 := by
  obtain ⟨ha, hb⟩ := leastIndexGE_range s hv u h0 h1
  rw [sampleIndex_eq s hv u, if_pos (by omega)]
  omega

theorem sampleIndex_zero (s : PrimaryGeneratorAction) (hv : ValidTable s) :
    sampleIndex s 0 = 0 := by
  have hfirst := getD_of_getElem? _ _ _ hv.first
  have hlen := hv.lengthCumulative
  have hz : leastIndexGE s.cumulativeDistribution 0 = 0 := by
    by_contra hc
    have := leastIndexGE_below s.cumulativeDistribution 0 0 (by omega)
    rw [hfirst] at this
    exact absurd this (lt_irrefl _)
  rw [sampleIndex_eq s hv 0, hz]
  simp

theorem bin_bounds (s : PrimaryGeneratorAction) (hv : ValidTable s) (u : ℚ)
    (h0 : 0 < u) (h1 : u ≤ 1) :
    s.cumulativeDistribution.getD (sampleIndex s u) 0 < u ∧
      u ≤ s.cumulativeDistribution.getD (sampleIndex s u + 1) 0 := by
  obtain ⟨ha, hb⟩ := leastIndexGE_range s hv u h0 h1
  have hlen := hv.lengthCumulative
  rw [sampleIndex_pos s hv u h0 h1]
  constructor
  · exact leastIndexGE_below s.cumulativeDistribution u _ (by omega)
  · have : leastIndexGE s.cumulativeDistribution u - 1 + 1
        = leastIndexGE s.cumulativeDistribution u := by omega
    rw [this]
    exact leastIndexGE_at s.cumulativeDistribution u (by omega)

theorem sample_bounds (s : PrimaryGeneratorAction) (hv : ValidTable s) (u : ℚ)
    (h0 : 0 < u) (h1 : u ≤ 1) :
    ∃ e, SampleEnergyFromSpectrum s u = some e ∧
      s.spectrumEnergies.getD (sampleIndex s u) 0 ≤ e ∧
      e ≤ s.spectrumEnergies.getD
        (min (sampleIndex s u + 1) (s.spectrumEnergies.length - 1)) 0 := by
  obtain ⟨hc0, hc1⟩ := bin_bounds s hv u h0 h1
  have hlt := sampleIndex_lt s hv u
  rw [sample_formula s hv u]
  by_cases hb : sampleIndex s u + 1 < s.spectrumEnergies.length
  · have hd : 0 < s.cumulativeDistribution.getD (sampleIndex s u + 1) 0
        - s.cumulativeDistribution.getD (sampleIndex s u) 0 := by linarith
    have he : s.spectrumEnergies.getD (sampleIndex s u) 0
        ≤ s.spectrumEnergies.getD (sampleIndex s u + 1) 0 :=
      getD_mono_of_pairwise _ hv.sortedEnergies _ _ (by omega) hb
    have hmin : min (sampleIndex s u + 1) (s.spectrumEnergies.length - 1)
        = sampleIndex s u + 1 := by omega
    have hf0 : 0 ≤ (u - s.cumulativeDistribution.getD (sampleIndex s u) 0)
        / (s.cumulativeDistribution.getD (sampleIndex s u + 1) 0
            - s.cumulativeDistribution.getD (sampleIndex s u) 0) :=
      div_nonneg (by linarith) (le_of_lt hd)
    have hf1 : (u - s.cumulativeDistribution.getD (sampleIndex s u) 0)
        / (s.cumulativeDistribution.getD (sampleIndex s u + 1) 0
            - s.cumulativeDistribution.getD (sampleIndex s u) 0) ≤ 1 := by
      rw [div_le_one hd]; linarith
    rw [if_pos hb, divide_of_ne _ _ (ne_of_gt hd), hmin]
    refine ⟨_, rfl, ?_, ?_⟩
    · nlinarith
    · nlinarith
  · have hmin : min (sampleIndex s u + 1) (s.spectrumEnergies.length - 1)
        = sampleIndex s u := by omega
    rw [if_neg hb, hmin]
    exact ⟨_, rfl, le_refl _, le_refl _⟩

theorem InitializeSpectrum_empty (stdSort : List (ℚ × ℚ) → List (ℚ × ℚ))
    (readSpectrum : String → List (ℚ × ℚ))
    (s : PrimaryGeneratorAction) (hpoly : s.monochromatic = false)
    (hempty : readSpectrum s.spectrumFilename = []) :
    InitializeSpectrum stdSort readSpectrum s = Except.error "Failed to load spectrum file" := by
  simp [InitializeSpectrum, hpoly, hempty]

end PrimaryGeneratorAction

/-! ## Claims -/

/-- C1, as stated, fails: for the registry entry drosophila of 1000 mm³ with
1 MeV in the ledger the mass is positive and the dose written by
`EndOfRunAction` differs from `1 * 1.602176634e-10 / mass`. -/
theorem C1_counterexample :
    ∃ rep row,
      EndOfRunAction (fun _ => true) "dose_results_" "drosophila" 1 1e12
        ⟨[("drosophila", 1)], [("drosophila", 1000)]⟩ = some rep ∧
      rep.rows = [row] ∧ row.volName = "drosophila" ∧
      0 < massOf "drosophila" 1000 ∧
      row.dose ≠ 1 * 1.602176634e-10 / massOf "drosophila" 1000 := by
  refine ⟨_, _, rfl, rfl, rfl, ?_, ?_⟩
  · simp [massOf, densityOf]
    norm_num
  · simp [reportRow_eq, massOf, densityOf, getDoseMap, StdMap.find]
    norm_num

/-- C1 (amended): in the report that `EndOfRunAction` writes for a run with a
non-zero number of events there is one row per registry entry, in order, and
for every entry whose mass `volume * density` is positive the dose of its row
equals `energyDep * 1.602e-10 / mass`, with `energyDep` the ledger value of the
volume or 0. -/
theorem C1_dose_formula (canOpen : String → Bool)
    (outputPrefix insectName : String) (nEvents : Int)
    (photonFlux : ℚ) (g : SteppingAction) (hn : nEvents ≠ 0) :
    ∃ rep, EndOfRunAction canOpen outputPrefix insectName nEvents photonFlux g = some rep ∧
      List.Forall₂
        (fun entry row => row.volName = entry.1 ∧
          (0 < massOf entry.1 entry.2 →
            row.dose = (g.doseMap.find entry.1).getD 0 * 1.602e-10 / massOf entry.1 entry.2))
        g.volumeMap rep.rows := by
  obtain ⟨rep, hrep, hrows⟩ := EndOfRunAction_rows canOpen outputPrefix insectName nEvents photonFlux g hn
  refine ⟨rep, hrep, ?_⟩
  rw [hrows]
  apply forall₂_map_same
  intro entry _
  exact ⟨rfl, reportRow_dose nEvents _ g.doseMap entry⟩

/-- Witness of C1 (amended): a run of 100 events over the registry
`Tube ↦ 1000` and the ledger `Tube ↦ 500`. -/
theorem C1_witness :
    (100 : Int) ≠ 0 ∧
    ∃ rep, EndOfRunAction (fun _ => true) "dose_results_" "drosophila" 100 1e12
        ⟨[("Tube", 500)], [("Tube", 1000)]⟩ = some rep ∧
      List.Forall₂
        (fun entry row => row.volName = entry.1 ∧
          (0 < massOf entry.1 entry.2 →
            row.dose = (StdMap.find [("Tube", 500)] entry.1).getD 0 * 1.602e-10
              / massOf entry.1 entry.2))
        ([("Tube", 1000)] : StdMap) rep.rows :=
  ⟨by decide, C1_dose_formula (fun _ => true) "dose_results_" "drosophila" 100 1e12
    ⟨[("Tube", 500)], [("Tube", 1000)]⟩ (by decide)⟩

/-- C2: for a run of at least one event the report has one row per registry
entry, in order, and for every entry of positive mass the row satisfies
`dosePerEvent = dose / eventCount` and
`doseRate = dosePerEvent * photonFlux * beamArea`, where
`beamArea = beamSize * beamSize = 100`. -/
theorem C2_perEvent_and_rate (canOpen : String → Bool)
    (outputPrefix insectName : String) (nEvents : Int)
    (photonFlux : ℚ) (g : SteppingAction) (hn : 1 ≤ nEvents) :
    ∃ rep, EndOfRunAction canOpen outputPrefix insectName nEvents photonFlux g = some rep ∧
      List.Forall₂
        (fun entry row => row.volName = entry.1 ∧
          (0 < massOf entry.1 entry.2 →
            row.dosePerEvent = row.dose / (nEvents : ℚ) ∧
            row.doseRate = row.dosePerEvent * photonFlux * beamArea))
        g.volumeMap rep.rows ∧
      beamArea = beamSize * beamSize ∧ beamArea = 100 := by
  have hn0 : nEvents ≠ 0 := by omega
  obtain ⟨rep, hrep, hrows⟩ := EndOfRunAction_rows canOpen outputPrefix insectName nEvents photonFlux g hn0
  refine ⟨rep, hrep, ?_, rfl, by norm_num [beamArea, beamSize, mm]⟩
  rw [hrows]
  apply forall₂_map_same
  intro entry _
  refine ⟨rfl, fun hm => ?_⟩
  obtain ⟨h1, h2⟩ := reportRow_perEvent nEvents (photonFlux * beamArea) g.doseMap entry hm
  exact ⟨h1, by rw [h2]; ring⟩

/-- Witness of C2: a run of 100 events over the registry `Tube ↦ 1000` and the
ledger `Tube ↦ 500`. -/
theorem C2_witness :
    (1 : Int) ≤ 100 ∧
    ∃ rep, EndOfRunAction (fun _ => true) "dose_results_" "drosophila" 100 1e12
        ⟨[("Tube", 500)], [("Tube", 1000)]⟩ = some rep ∧
      List.Forall₂
        (fun entry row => row.volName = entry.1 ∧
          (0 < massOf entry.1 entry.2 →
            row.dosePerEvent = row.dose / ((100 : Int) : ℚ) ∧
            row.doseRate = row.dosePerEvent * 1e12 * beamArea))
        ([("Tube", 1000)] : StdMap) rep.rows ∧
      beamArea = beamSize * beamSize ∧ beamArea = 100 :=
  ⟨by decide, C2_perEvent_and_rate (fun _ => true) "dose_results_" "drosophila" 100 1e12
    ⟨[("Tube", 500)], [("Tube", 1000)]⟩ (by decide)⟩

/-- C4: for a registry with the map invariant, any ledger and a run of at
least one event, the volume names of the report rows are exactly the keys of
the registry in iteration order, which is strictly ascending, so each key
occurs once; and the row of a registered volume without a ledger entry has
energy, dose, dose per event and dose rate 0. -/
theorem C4_rows_follow_registry (canOpen : String → Bool)
    (outputPrefix insectName : String) (nEvents : Int)
    (photonFlux : ℚ) (g : SteppingAction) (hwf : g.volumeMap.WF) (hn : 1 ≤ nEvents) :
    ∃ rep, EndOfRunAction canOpen outputPrefix insectName nEvents photonFlux g = some rep ∧
      rep.rows.map ReportRow.volName = g.volumeMap.keys ∧
      (rep.rows.map ReportRow.volName).Pairwise (· < ·) ∧
      (rep.rows.map ReportRow.volName).Nodup ∧
      List.Forall₂
        (fun entry row => row.volName = entry.1 ∧
          (g.doseMap.find entry.1 = none →
            row.energyDep = 0 ∧ row.dose = 0 ∧ row.dosePerEvent = 0 ∧ row.doseRate = 0))
        g.volumeMap rep.rows := by
  have hn0 : nEvents ≠ 0 := by omega
  obtain ⟨rep, hrep, hrows⟩ := EndOfRunAction_rows canOpen outputPrefix insectName nEvents photonFlux g hn0
  have hnames : rep.rows.map ReportRow.volName = g.volumeMap.keys := by
    rw [hrows, List.map_map]
    rfl
  refine ⟨rep, hrep, hnames, ?_, ?_, ?_⟩
  · rw [hnames]; exact hwf
  · rw [hnames]; exact hwf.imp (fun h => ne_of_lt h)
  · rw [hrows]
    apply forall₂_map_same
    intro entry _
    exact ⟨rfl, reportRow_unhit nEvents _ g.doseMap entry⟩

/-- Witness of C4: the registry `Ethanol ↦ 2, Tube ↦ 1` with the ledger
`Tube ↦ 7` and a run of 5 events. -/
theorem C4_witness :
    StdMap.WF ([("Ethanol", 2), ("Tube", 1)] : StdMap) ∧ (1 : Int) ≤ 5 ∧
    ∃ rep, EndOfRunAction (fun _ => true) "dose_results_" "drosophila" 5 1e12
        ⟨[("Tube", 7)], [("Ethanol", 2), ("Tube", 1)]⟩ = some rep ∧
      rep.rows.map ReportRow.volName = StdMap.keys ([("Ethanol", 2), ("Tube", 1)] : StdMap) ∧
      (rep.rows.map ReportRow.volName).Pairwise (· < ·) ∧
      (rep.rows.map ReportRow.volName).Nodup ∧
      List.Forall₂
        (fun entry row => row.volName = entry.1 ∧
          (StdMap.find [("Tube", 7)] entry.1 = none →
            row.energyDep = 0 ∧ row.dose = 0 ∧ row.dosePerEvent = 0 ∧ row.doseRate = 0))
        ([("Ethanol", 2), ("Tube", 1)] : StdMap) rep.rows :=
  ⟨by simpa [StdMap.WF, StdMap.keys] using Ethanol_lt_Tube, by decide,
    C4_rows_follow_registry (fun _ => true) "dose_results_" "drosophila" 5 1e12
      ⟨[("Tube", 7)], [("Ethanol", 2), ("Tube", 1)]⟩
      (by simpa [StdMap.WF, StdMap.keys] using Ethanol_lt_Tube) (by decide)⟩

/-- C5: a step with `energyDep > 0` in a volume `v` other than World sets the
ledger value of `v` to its old value (or 0) plus `energyDep`, leaves the value
of every other key unchanged and removes no key; and over any sequence of
steps a ledger value that is present stays present and never decreases. -/
theorem C5_step_accumulates (g : SteppingAction) (e : ℚ) (v : String)
    (he : 0 < e) (hv : v ≠ "World") :
    (g.UserSteppingAction ⟨e, some v⟩).doseMap.find v
        = some ((g.doseMap.find v).getD 0 + e) ∧
      (∀ k, k ≠ v → (g.UserSteppingAction ⟨e, some v⟩).doseMap.find k = g.doseMap.find k) ∧
      (∀ k, k ∈ g.doseMap.keys → k ∈ (g.UserSteppingAction ⟨e, some v⟩).doseMap.keys) ∧
      (∀ (steps : List G4Step) (k : String) (x : ℚ), g.doseMap.find k = some x →
        ∃ y, (steps.foldl UserSteppingAction g).doseMap.find k = some y ∧ x ≤ y) := by
  rw [UserSteppingAction_deposit g e v he hv]
  refine ⟨?_, ?_, ?_, ?_⟩
  · simp [StdMap.addAssign, StdMap.find_assign_self]
  · intro k hk
    simp [StdMap.addAssign, StdMap.find_assign_of_ne _ _ _ _ hk]
  · intro k hk
    exact (StdMap.keys_assign_subset _ _ _ _).2 (Or.inr hk)
  · intro steps k x hx
    exact foldl_UserSteppingAction_mono steps g k x hx

/-- Witness of C5: a deposit of 3 MeV in Tube on the ledger `Tube ↦ 2`. -/
theorem C5_witness :
    (0 : ℚ) < 3 ∧ ("Tube" : String) ≠ "World" ∧
    ((SteppingAction.mk [("Tube", 2)] []).UserSteppingAction ⟨3, some "Tube"⟩).doseMap.find "Tube"
        = some ((StdMap.find [("Tube", 2)] "Tube").getD 0 + 3) ∧
      (∀ k, k ≠ "Tube" →
        ((SteppingAction.mk [("Tube", 2)] []).UserSteppingAction ⟨3, some "Tube"⟩).doseMap.find k
          = StdMap.find [("Tube", 2)] k) ∧
      (∀ k, k ∈ StdMap.keys [("Tube", 2)] →
        k ∈ ((SteppingAction.mk [("Tube", 2)] []).UserSteppingAction ⟨3, some "Tube"⟩).doseMap.keys) ∧
      (∀ (steps : List G4Step) (k : String) (x : ℚ), StdMap.find [("Tube", 2)] k = some x →
        ∃ y, (steps.foldl UserSteppingAction (SteppingAction.mk [("Tube", 2)] [])).doseMap.find k
            = some y ∧ x ≤ y) :=
  ⟨by norm_num, by decide,
    C5_step_accumulates (SteppingAction.mk [("Tube", 2)] []) 3 "Tube" (by norm_num) (by decide)⟩

/-- C6: a step whose energy deposit is at most 0, or whose volume is absent, or
whose volume is named World leaves the static state, and so the dose ledger,
exactly as it was. -/
theorem C6_noop (g : SteppingAction) (step : G4Step)
    (h : step.totalEnergyDeposit ≤ 0 ∨ step.volume = none ∨ step.volume = some "World") :
    g.UserSteppingAction step = g ∧
      (g.UserSteppingAction step).getDoseMap = g.getDoseMap := by
  have key : g.UserSteppingAction step = g := by
    obtain ⟨e, vol⟩ := step
    by_cases he : e ≤ 0
    · simp [UserSteppingAction, he]
    · rcases h with h | h | h
      · exact absurd h he
      · simp only at h
        subst h
        simp [UserSteppingAction]
      · simp only at h
        subst h
        simp [UserSteppingAction]
  exact ⟨key, by rw [key]⟩

/-- Witness of C6: a deposit of 5 MeV in the World volume. -/
theorem C6_witness :
    ((G4Step.mk 5 (some "World")).totalEnergyDeposit ≤ 0 ∨
        (G4Step.mk 5 (some "World")).volume = none ∨
        (G4Step.mk 5 (some "World")).volume = some "World") ∧
      ((SteppingAction.mk [("Tube", 2)] [("Tube", 1)]).UserSteppingAction
            (G4Step.mk 5 (some "World"))
          = SteppingAction.mk [("Tube", 2)] [("Tube", 1)] ∧
        ((SteppingAction.mk [("Tube", 2)] [("Tube", 1)]).UserSteppingAction
          (G4Step.mk 5 (some "World"))).getDoseMap
          = (SteppingAction.mk [("Tube", 2)] [("Tube", 1)]).getDoseMap) :=
  ⟨Or.inr (Or.inr rfl),
    C6_noop (SteppingAction.mk [("Tube", 2)] [("Tube", 1)]) (G4Step.mk 5 (some "World"))
      (Or.inr (Or.inr rfl))⟩

/-- C7, as stated, fails: with the registry `Tube ↦ 1` and an empty ledger, a
deposit of 1 MeV in a volume named Holder, which is not a key of the registry,
turns the ledger into `Holder ↦ 1`. -/
theorem C7_counterexample :
    (0 : ℚ) < 1 ∧
      StdMap.find (SteppingAction.mk [] [("Tube", 1)]).volumeMap "Holder" = none ∧
      ((SteppingAction.mk [] [("Tube", 1)]).UserSteppingAction ⟨1, some "Holder"⟩).doseMap
        = [("Holder", 1)] ∧
      ((SteppingAction.mk [] [("Tube", 1)]).UserSteppingAction ⟨1, some "Holder"⟩).doseMap
        ≠ (SteppingAction.mk [] [("Tube", 1)]).doseMap := by
  have h : ((SteppingAction.mk [] [("Tube", 1)]).UserSteppingAction ⟨1, some "Holder"⟩).doseMap
      = [("Holder", 1)] := by
    rw [UserSteppingAction_deposit _ _ _ (by norm_num) (by decide)]
    simp [StdMap.addAssign, StdMap.assign, StdMap.find]
  refine ⟨by norm_num, ?_, h, ?_⟩
  · simp [StdMap.find]
  · rw [h]; simp

/-- C7 (amended): `UserSteppingAction` does not consult the volume registry.  A
step with `energyDep > 0` in a volume other than World whose name is not a key
of the registry is accumulated like any other: the ledger value of that name
becomes its old value (or 0) plus `energyDep`, so the ledger changes; the
registry is unchanged, and the report of `EndOfRunAction`, which has rows for
registered volumes only, is the same as without the step. -/
theorem C7_unregistered_deposit (g : SteppingAction) (e : ℚ) (v : String)
    (he : 0 < e) (hv : v ≠ "World") (hreg : g.volumeMap.find v = none) :
    (g.UserSteppingAction ⟨e, some v⟩).doseMap.find v
        = some ((g.doseMap.find v).getD 0 + e) ∧
      (g.UserSteppingAction ⟨e, some v⟩).doseMap ≠ g.doseMap ∧
      (g.UserSteppingAction ⟨e, some v⟩).volumeMap = g.volumeMap ∧
      (∀ (canOpen : String → Bool) (outputPrefix insectName : String) (nEvents : Int)
          (photonFlux : ℚ),
        EndOfRunAction canOpen outputPrefix insectName nEvents photonFlux
            (g.UserSteppingAction ⟨e, some v⟩)
          = EndOfRunAction canOpen outputPrefix insectName nEvents photonFlux g) := by
  have hfind : (g.UserSteppingAction ⟨e, some v⟩).doseMap.find v
      = some ((g.doseMap.find v).getD 0 + e) := by
    rw [UserSteppingAction_deposit g e v he hv]
    simp [StdMap.addAssign, StdMap.find_assign_self]
  refine ⟨hfind, ?_, UserSteppingAction_volumeMap g _, ?_⟩
  · intro heq
    rw [heq] at hfind
    cases hg : g.doseMap.find v with
    | none => rw [hg] at hfind; exact absurd hfind (by simp)
    | some x =>
      rw [hg] at hfind
      simp at hfind
      linarith
  · intro canOpen outputPrefix insectName nEvents photonFlux
    rw [UserSteppingAction_deposit g e v he hv]
    unfold EndOfRunAction
    split_ifs
    · rfl
    · simp only [getDoseMap, getVolumeMap, Option.some.injEq, Report.mk.injEq, true_and]
      apply List.map_congr_left
      intro entry hentry
      apply reportRow_congr
      have hne : entry.1 ≠ v := by
        intro h
        have : v ∈ g.volumeMap.keys := by
          rw [← h]
          exact List.mem_map_of_mem Prod.fst hentry
        exact ((StdMap.find_eq_none_iff _ _).1 hreg) this
      simp [StdMap.addAssign, StdMap.find_assign_of_ne _ _ _ _ hne]

/-- Witness of C7 (amended): a deposit of 1 MeV in Holder with the registry
`Tube ↦ 1` and an empty ledger. -/
theorem C7_witness :
    (0 : ℚ) < 1 ∧ ("Holder" : String) ≠ "World" ∧
      StdMap.find (SteppingAction.mk [] [("Tube", 1)]).volumeMap "Holder" = none ∧
    (((SteppingAction.mk [] [("Tube", 1)]).UserSteppingAction
          ⟨1, some "Holder"⟩).doseMap.find "Holder"
        = some ((StdMap.find (SteppingAction.mk [] [("Tube", 1)]).doseMap "Holder").getD 0 + 1) ∧
      ((SteppingAction.mk [] [("Tube", 1)]).UserSteppingAction ⟨1, some "Holder"⟩).doseMap
        ≠ (SteppingAction.mk [] [("Tube", 1)]).doseMap ∧
      ((SteppingAction.mk [] [("Tube", 1)]).UserSteppingAction ⟨1, some "Holder"⟩).volumeMap
        = (SteppingAction.mk [] [("Tube", 1)]).volumeMap ∧
      (∀ (canOpen : String → Bool) (outputPrefix insectName : String) (nEvents : Int)
          (photonFlux : ℚ),
        EndOfRunAction canOpen outputPrefix insectName nEvents photonFlux
            ((SteppingAction.mk [] [("Tube", 1)]).UserSteppingAction ⟨1, some "Holder"⟩)
          = EndOfRunAction canOpen outputPrefix insectName nEvents photonFlux
              (SteppingAction.mk [] [("Tube", 1)]))) :=
  ⟨by norm_num, by decide, by simp [StdMap.find],
    C7_unregistered_deposit (SteppingAction.mk [] [("Tube", 1)]) 1 "Holder"
      (by norm_num) (by decide) (by simp [StdMap.find])⟩

/-- C8: after `BeginOfRunAction` the dose ledger is the empty map, whatever it
held before: it has no entry for any key; resetting twice gives the same state
as resetting once; the registry is not touched. -/
theorem C8_reset (g : SteppingAction) :
    (BeginOfRunAction g).getDoseMap = [] ∧
      (∀ k, (BeginOfRunAction g).getDoseMap.find k = none) ∧
      BeginOfRunAction (BeginOfRunAction g) = BeginOfRunAction g ∧
      (BeginOfRunAction g).getVolumeMap = g.getVolumeMap := by
  refine ⟨rfl, fun k => rfl, rfl, rfl⟩

/-- C9: in polychromatic mode, for a spectrum input of `N ≥ 1` parsed pairs
whose intensities are all non-negative and sum to a positive value,
`InitializeSpectrum` succeeds, stores the intensities of the sorted pairs each
divided by the sum, and builds a cumulative array of length `N + 1` with
`cumulative[0] = 0`, `cumulative[k]` the sum of the first `k` normalised
intensities, non-decreasing, `cumulative[N] = 1`; the normalised intensities
sum to 1. -/
theorem C9_cumulative_table (stdSort : List (ℚ × ℚ) → List (ℚ × ℚ))
    (hsort : StdSort stdSort) (readSpectrum : String → List (ℚ × ℚ))
    (s : PrimaryGeneratorAction) (hpoly : s.monochromatic = false)
    (hN : 1 ≤ (readSpectrum s.spectrumFilename).length)
    (hnonneg : ∀ p ∈ readSpectrum s.spectrumFilename, 0 ≤ p.2)
    (hsum : 0 < ((readSpectrum s.spectrumFilename).map Prod.snd).sum) :
    ∃ t, InitializeSpectrum stdSort readSpectrum s = Except.ok t ∧
      t.spectrumIntensities
        = (stdSort (readSpectrum s.spectrumFilename)).map
            (fun p => p.2 / ((readSpectrum s.spectrumFilename).map Prod.snd).sum) ∧
      t.spectrumIntensities.length = (readSpectrum s.spectrumFilename).length ∧
      t.cumulativeDistribution.length = (readSpectrum s.spectrumFilename).length + 1 ∧
      t.cumulativeDistribution[0]? = some 0 ∧
      (∀ k, k ≤ (readSpectrum s.spectrumFilename).length →
        t.cumulativeDistribution[k]? = some ((t.spectrumIntensities.take k).sum)) ∧
      t.cumulativeDistribution.Pairwise (· ≤ ·) ∧
      t.cumulativeDistribution[(readSpectrum s.spectrumFilename).length]? = some 1 ∧
      t.spectrumIntensities.sum = 1 := by
  have hne : readSpectrum s.spectrumFilename ≠ [] := by
    intro h
    rw [h] at hN
    simp at hN
  have hlen : ((stdSort (readSpectrum s.spectrumFilename)).map Prod.snd).length
      = (readSpectrum s.spectrumFilename).length := by
    rw [List.length_map, stdSort_length hsort]
  have hpos : ∀ x ∈ (stdSort (readSpectrum s.spectrumFilename)).map Prod.snd, 0 ≤ x := by
    intro x hx
    obtain ⟨p, hp, rfl⟩ := List.mem_map.1 hx
    exact hnonneg p ((hsort _).1.mem_iff.1 hp)
  have hone : (((stdSort (readSpectrum s.spectrumFilename)).map Prod.snd).map
      (fun x => x / ((readSpectrum s.spectrumFilename).map Prod.snd).sum)).sum = 1 := by
    rw [sum_map_div, stdSort_intensity_sum hsort]
    exact div_self (ne_of_gt hsum)
  have hget := normalizeLoop_getElem ((readSpectrum s.spectrumFilename).map Prod.snd).sum
    ((stdSort (readSpectrum s.spectrumFilename)).map Prod.snd) 0
  refine ⟨_, InitializeSpectrum_poly stdSort hsort readSpectrum s hpoly hne hsum, ?_, ?_, ?_, ?_, ?_, ?_, ?_, ?_⟩
  · simp only [normalizeLoop_fst, List.map_map]
    rfl
  · simp only [normalizeLoop_fst, List.length_map, stdSort_length hsort]
  · simp only [List.length_cons, normalizeLoop_snd_length, List.length_map, stdSort_length hsort]
  · simp
  · intro k hk
    simp only [normalizeLoop_fst]
    rw [hget k (by rw [hlen]; exact hk), zero_add]
  · exact normalizeLoop_pairwise _ _ 0 hsum hpos
  · simp only
    rw [hget _ (le_of_eq hlen.symm), zero_add, ← hlen, ← List.length_map _ (fun x => x / _),
      List.take_length, hone]
  · simp only [normalizeLoop_fst]
    exact hone

/-- Witness of C9: the two-bin input `(2000 eV, 3), (1000 eV, 1)`. -/
theorem C9_witness :
    exampleGenerator.monochromatic = false ∧
    1 ≤ (exampleSpectrum exampleGenerator.spectrumFilename).length ∧
    (∀ p ∈ exampleSpectrum exampleGenerator.spectrumFilename, 0 ≤ p.2) ∧
    0 < ((exampleSpectrum exampleGenerator.spectrumFilename).map Prod.snd).sum ∧
    ∃ t, InitializeSpectrum stableSort exampleSpectrum exampleGenerator = Except.ok t ∧
      t.spectrumIntensities
        = (stableSort (exampleSpectrum exampleGenerator.spectrumFilename)).map
            (fun p => p.2 / ((exampleSpectrum exampleGenerator.spectrumFilename).map Prod.snd).sum) ∧
      t.spectrumIntensities.length = (exampleSpectrum exampleGenerator.spectrumFilename).length ∧
      t.cumulativeDistribution.length
        = (exampleSpectrum exampleGenerator.spectrumFilename).length + 1 ∧
      t.cumulativeDistribution[0]? = some 0 ∧
      (∀ k, k ≤ (exampleSpectrum exampleGenerator.spectrumFilename).length →
        t.cumulativeDistribution[k]? = some ((t.spectrumIntensities.take k).sum)) ∧
      t.cumulativeDistribution.Pairwise (· ≤ ·) ∧
      t.cumulativeDistribution[(exampleSpectrum exampleGenerator.spectrumFilename).length]?
        = some 1 ∧
      t.spectrumIntensities.sum = 1 :=
  have h1 : exampleGenerator.monochromatic = false := rfl
  have h2 : 1 ≤ (exampleSpectrum exampleGenerator.spectrumFilename).length := by
    simp [exampleSpectrum]
  have h3 : ∀ p ∈ exampleSpectrum exampleGenerator.spectrumFilename, 0 ≤ p.2 := by
    intro p hp
    simp only [exampleSpectrum, List.mem_cons, List.mem_singleton, List.not_mem_nil,
      or_false] at hp
    rcases hp with rfl | rfl <;> norm_num
  have h4 : 0 < ((exampleSpectrum exampleGenerator.spectrumFilename).map Prod.snd).sum := by
    norm_num [exampleSpectrum]
  ⟨h1, h2, h3, h4, C9_cumulative_table stableSort stableSort_stdSort exampleSpectrum exampleGenerator h1 h2 h3 h4⟩

/-- C10: in monochromatic mode `InitializeSpectrum` succeeds whatever the
spectrum file name and the spectrum source are and builds
`energies = [monoEnergy]`, `intensities = [1]`, `cumulative = [0, 1]`; on that
table `SampleEnergyFromSpectrum` returns `monoEnergy` for every `u` in
`[0, 1)`. -/
theorem C10_monochromatic (stdSort : List (ℚ × ℚ) → List (ℚ × ℚ))
    (readSpectrum : String → List (ℚ × ℚ))
    (s : PrimaryGeneratorAction) (hmono : s.monochromatic = true) :
    ∃ t, InitializeSpectrum stdSort readSpectrum s = Except.ok t ∧
      t.spectrumEnergies = [s.monoEnergy] ∧
      t.spectrumIntensities = [1] ∧
      t.cumulativeDistribution = [0, 1] ∧
      (∀ u : ℚ, 0 ≤ u → u < 1 → SampleEnergyFromSpectrum t u = some s.monoEnergy) := by
  refine ⟨{ s with
              spectrumEnergies := [s.monoEnergy]
              spectrumIntensities := [1]
              cumulativeDistribution := [0, 1]
              maxIntensity := 1 },
    by simp [InitializeSpectrum, hmono], rfl, rfl, rfl, ?_⟩
  intro u _ hu1
  have hlb : lowerBound [0, 1] u = if 0 < u then 1 else 0 := lowerBound_unit_table u hu1
  have hwrap : (1 + 2 ^ sizeBits - 1) % 2 ^ sizeBits = 0 := by norm_num [sizeBits]
  simp only [SampleEnergyFromSpectrum, sampleIndex, sampleSizeMinus1, hlb, List.length_singleton, hwrap]
  by_cases h0 : 0 < u
  · simp [h0]
  · simp [h0]

/-- Witness of C10: the example generator switched to monochromatic mode. -/
theorem C10_witness :
    ({ exampleGenerator with monochromatic := true } : PrimaryGeneratorAction).monochromatic
        = true ∧
    ∃ t, InitializeSpectrum stableSort exampleSpectrum { exampleGenerator with monochromatic := true }
        = Except.ok t ∧
      t.spectrumEnergies
        = [({ exampleGenerator with monochromatic := true } : PrimaryGeneratorAction).monoEnergy] ∧
      t.spectrumIntensities = [1] ∧
      t.cumulativeDistribution = [0, 1] ∧
      (∀ u : ℚ, 0 ≤ u → u < 1 → SampleEnergyFromSpectrum t u
        = some ({ exampleGenerator with monochromatic := true } : PrimaryGeneratorAction).monoEnergy) :=
  ⟨rfl, C10_monochromatic stableSort exampleSpectrum { exampleGenerator with monochromatic := true } rfl⟩

/-- C11, as stated, fails: for the table that `InitializeSpectrum` builds from
the two-bin spectrum `(1 keV, 0.25), (2 keV, 0.75)`, the mean of the sampled
energy over `u` uniform in `[0, 1)`, the limit of the means over the grids
`k / n`, is not 1.75 keV. -/
theorem C11_counterexample :
    ∃ t, InitializeSpectrum stableSort twoBinSpectrum exampleGenerator = Except.ok t ∧
      ¬ Filter.Tendsto (fun n : ℕ => ((gridMean t n : ℚ) : ℝ)) Filter.atTop
          (nhds (((1.75 * keV : ℚ)) : ℝ)) := by
  refine ⟨_, twoBin_table, ?_⟩
  intro h
  have h2 := gridMean_twoBin_tendsto
    { exampleGenerator with
      spectrumEnergies := [1 * keV, 2 * keV]
      spectrumIntensities := [1 / 4, 3 / 4]
      cumulativeDistribution := [0, 1 / 4, 1]
      maxIntensity := 3 / 4 } rfl rfl
  have heq := tendsto_nhds_unique h h2
  have hq : (1.75 * keV : ℚ) = 15 / 8 * keV := by exact_mod_cast heq
  norm_num [keV] at hq

/-- C11 (amended): for the two-bin spectrum `(1 keV, 0.25), (2 keV, 0.75)` the
table has the energies `1 keV, 2 keV` and the cumulative array `0, 1/4, 1`;
`SampleEnergyFromSpectrum(u)` interpolates, `(1 + 4u) keV` for `u ≤ 1/4`, and
returns `2 keV` for `u > 1/4`; so the mean of the sampled energy over `u`
uniform in `[0, 1)` is 1.875 keV: the mean over the grid of `4m` equidistant
values is `(15/8 - 1/(8m)) keV`, the grid means tend to `15/8 keV`, and the
integral over `[0, 1]` of the sampled energy is `15/8 keV`. -/
theorem C11_mean_two_bin :
    ∃ t, InitializeSpectrum stableSort twoBinSpectrum exampleGenerator = Except.ok t ∧
      t.spectrumEnergies = [1 * keV, 2 * keV] ∧
      t.cumulativeDistribution = [0, 1 / 4, 1] ∧
      (∀ u : ℚ, 0 ≤ u → u < 1 →
        SampleEnergyFromSpectrum t u
          = some (if u ≤ 1 / 4 then (1 + 4 * u) * keV else 2 * keV)) ∧
      (∀ m : ℕ, 1 ≤ m → gridMean t (4 * m) = (15 / 8 - 1 / (8 * (m : ℚ))) * keV) ∧
      Filter.Tendsto (fun n : ℕ => ((gridMean t n : ℚ) : ℝ)) Filter.atTop
        (nhds (((15 / 8 * keV : ℚ)) : ℝ)) ∧
      ∫ x in (0 : ℝ)..1,
          (if x ≤ 1 / 4 then (1 + 4 * x) * ((keV : ℚ) : ℝ) else 2 * ((keV : ℚ) : ℝ))
        = 15 / 8 * ((keV : ℚ) : ℝ) ∧
      (15 / 8 * keV : ℚ) = 1.875 * keV :=
  ⟨_, twoBin_table, rfl, rfl,
    fun u h0 h1 => sample_twoBin _ rfl rfl u h0 h1,
    fun m hm => gridMean_twoBin_multiple _ rfl rfl m hm,
    gridMean_twoBin_tendsto _ rfl rfl,
    twoBin_integral,
    by norm_num⟩

/-- C12, as stated, fails: the file of the inward-oriented tetrahedron has a
count of 4 followed by 4 complete records, and the volume that `LoadSTLSolid`
registers for it, with scale 10 and no offset, is `-500/3`, which is not
`≥ 0`. -/
theorem C12_counterexample :
    exampleHost.files "meshes/inward.stl" = some inwardTetrahedronFile ∧
      0 < inwardTetrahedronFile.numTriangles ∧
      inwardTetrahedronFile.triangles.length = inwardTetrahedronFile.numTriangles ∧
      (LoadSTLSolid exampleHost ⟨[], []⟩ "meshes/inward.stl" "drosophila_solid" 10
          ⟨0, 0, 0⟩).2.volumeMap = [("drosophila", -500 / 3)] ∧
      ¬ ((0 : ℚ) ≤ -500 / 3) := by
  refine ⟨rfl, by decide, rfl, ?_, by norm_num⟩
  rw [LoadSTLSolid_complete exampleHost ⟨[], []⟩ "meshes/inward.stl" "drosophila_solid" 10
    ⟨0, 0, 0⟩ inwardTetrahedronFile rfl rfl, volumeNameOf_drosophila]
  simp [SteppingAction.setVolume, StdMap.assign, G4TessellatedSolid.GetCubicVolume,
    G4TessellatedSolid.tripleProduct, inwardTetrahedronFile, triangleRecord, facetOf,
    offsetVertex, mm]
  norm_num

/-- C12 (amended): for every mesh file that opens and whose count field is
`N > 0` followed by `N` complete records, `LoadSTLSolid` returns a solid with
exactly `N` facets, the `i`-th facet built from the three vertices of the
`i`-th record, and registers for it, under the name cut at `_solid`, the cubic
volume of the solid: the signed volume, one sixth of the sum of the triple
products of the facets, which need not be `≥ 0`. -/
theorem C12_load_facets (host : Host) (g : SteppingAction) (filename name : String)
    (scaleFactor : ℚ) (offset : G4ThreeVector) (file : STLFile)
    (hopen : host.files filename = some file) (_hN : 0 < file.numTriangles)
    (hcomplete : file.triangles.length = file.numTriangles) :
    ∃ solid, (LoadSTLSolid host g filename name scaleFactor offset).1 = some solid ∧
      solid.facets.length = file.numTriangles ∧
      (∀ i, i < file.numTriangles →
        solid.facets[i]? = (file.triangles[i]?).map (facetOf scaleFactor offset)) ∧
      (LoadSTLSolid host g filename name scaleFactor offset).2.volumeMap.find (volumeNameOf name)
        = some solid.GetCubicVolume ∧
      solid.GetCubicVolume
        = ((file.triangles.map (facetOf scaleFactor offset)).map
            G4TessellatedSolid.tripleProduct).sum / 6 := by
  rw [LoadSTLSolid_complete host g filename name scaleFactor offset file hopen hcomplete]
  refine ⟨_, rfl, ?_, ?_, ?_, rfl⟩
  · simp [hcomplete]
  · intro i _
    simp
  · simp [SteppingAction.setVolume, StdMap.find_assign_self]

/-- Witness of C12 (amended): the drosophila mesh of the example host, the
outward-oriented tetrahedron. -/
theorem C12_witness :
    exampleHost.files "meshes/drosophila.stl" = some tetrahedronFile ∧
    0 < tetrahedronFile.numTriangles ∧
    tetrahedronFile.triangles.length = tetrahedronFile.numTriangles ∧
    ∃ solid, (LoadSTLSolid exampleHost ⟨[], []⟩ "meshes/drosophila.stl" "drosophila_solid" 10
        ⟨0, 0, 0⟩).1 = some solid ∧
      solid.facets.length = tetrahedronFile.numTriangles ∧
      (∀ i, i < tetrahedronFile.numTriangles →
        solid.facets[i]? = (tetrahedronFile.triangles[i]?).map (facetOf 10 ⟨0, 0, 0⟩)) ∧
      (LoadSTLSolid exampleHost ⟨[], []⟩ "meshes/drosophila.stl" "drosophila_solid" 10
        ⟨0, 0, 0⟩).2.volumeMap.find (volumeNameOf "drosophila_solid")
        = some solid.GetCubicVolume ∧
      solid.GetCubicVolume
        = ((tetrahedronFile.triangles.map (facetOf 10 ⟨0, 0, 0⟩)).map
            G4TessellatedSolid.tripleProduct).sum / 6 :=
  ⟨rfl, by decide, rfl,
    C12_load_facets exampleHost ⟨[], []⟩ "meshes/drosophila.stl" "drosophila_solid" 10 ⟨0, 0, 0⟩
      tetrahedronFile rfl (by decide) rfl⟩

/-- C13, the code at the failing input: a mesh file that opens and has a
triangle count of 0 does not make `LoadSTLSolid` fail; it returns a closed
solid without facets and registers the volume 0 under the stripped name. -/
theorem C13_empty_mesh_loads :
    exampleHost.files "meshes/empty.stl" = some { numTriangles := 0, triangles := [] } ∧
      LoadSTLSolid exampleHost ⟨[], []⟩ "meshes/empty.stl" "drosophila_solid" 10 ⟨0, 0, 0⟩
        = (some { name := "drosophila_solid", facets := [], solidClosed := true },
           ⟨[], [("drosophila", 0)]⟩) := by
  refine ⟨rfl, ?_⟩
  rw [LoadSTLSolid_complete exampleHost ⟨[], []⟩ "meshes/empty.stl" "drosophila_solid" 10
    ⟨0, 0, 0⟩ { numTriangles := 0, triangles := [] } rfl rfl, volumeNameOf_drosophila]
  simp [SteppingAction.setVolume, StdMap.assign, G4TessellatedSolid.GetCubicVolume]

/-- C14: for every mesh file that opens with a count `N > 0` followed by `N`
complete records, whose coordinates are in the range of `float`,
`GetSTLMeshCenter` returns on each axis `(min + max) / 2` of that coordinate
over all `3N` raw vertices; for the single triangle
`(0,0,0), (2,0,0), (0,2,0)` it returns `(1, 1, 0)`; for a file that cannot be
opened or has a count of 0 it returns `(0, 0, 0)`. -/
theorem C14_mesh_center (host : Host) (filename : String) :
    (∀ file, host.files filename = some file → 0 < file.numTriangles →
      file.triangles.length = file.numTriangles →
      (∀ v ∈ file.vertices, InFloatRange v.x ∧ InFloatRange v.y ∧ InFloatRange v.z) →
      (∃ lo hi, lo ∈ file.vertices.map G4ThreeVector.x ∧ hi ∈ file.vertices.map G4ThreeVector.x ∧
        (∀ c ∈ file.vertices.map G4ThreeVector.x, lo ≤ c ∧ c ≤ hi) ∧
        (GetSTLMeshCenter host filename).x = (lo + hi) / 2) ∧
      (∃ lo hi, lo ∈ file.vertices.map G4ThreeVector.y ∧ hi ∈ file.vertices.map G4ThreeVector.y ∧
        (∀ c ∈ file.vertices.map G4ThreeVector.y, lo ≤ c ∧ c ≤ hi) ∧
        (GetSTLMeshCenter host filename).y = (lo + hi) / 2) ∧
      (∃ lo hi, lo ∈ file.vertices.map G4ThreeVector.z ∧ hi ∈ file.vertices.map G4ThreeVector.z ∧
        (∀ c ∈ file.vertices.map G4ThreeVector.z, lo ≤ c ∧ c ≤ hi) ∧
        (GetSTLMeshCenter host filename).z = (lo + hi) / 2)) ∧
    (host.files filename = none → GetSTLMeshCenter host filename = ⟨0, 0, 0⟩) ∧
    (∀ file, host.files filename = some file → file.numTriangles = 0 →
      GetSTLMeshCenter host filename = ⟨0, 0, 0⟩) ∧
    GetSTLMeshCenter exampleHost "meshes/triangle.stl" = ⟨1, 1, 0⟩ := by
  refine ⟨?_, ?_, ?_, ?_⟩
  · intro file hopen hN hcomplete hfloat
    have hne : file.vertices ≠ [] := by
      cases ht : file.triangles with
      | nil =>
        rw [ht] at hcomplete
        simp at hcomplete
        omega
      | cons t rest => simp [STLFile.vertices, ht]
    rw [GetSTLMeshCenter_complete host filename file hopen hN hcomplete]
    refine ⟨?_, ?_, ?_⟩
    · exact midpoint_of_range _ (by simpa using hne)
        (fun c hc => by
          obtain ⟨v, hv, rfl⟩ := List.mem_map.1 hc
          exact (hfloat v hv).1)
    · exact midpoint_of_range _ (by simpa using hne)
        (fun c hc => by
          obtain ⟨v, hv, rfl⟩ := List.mem_map.1 hc
          exact (hfloat v hv).2.1)
    · exact midpoint_of_range _ (by simpa using hne)
        (fun c hc => by
          obtain ⟨v, hv, rfl⟩ := List.mem_map.1 hc
          exact (hfloat v hv).2.2)
  · intro hopen
    simp only [GetSTLMeshCenter, hopen]
  · intro file hopen h0
    simp only [GetSTLMeshCenter, hopen, h0, if_true]
  · rw [GetSTLMeshCenter_complete exampleHost "meshes/triangle.stl" triangleFile rfl
      (by decide) rfl]
    simp [STLFile.vertices, triangleFile, triangleRecord]
    norm_num [DBL_MAX]

/-- Witness of C14: the file of the single triangle
`(0,0,0), (2,0,0), (0,2,0)`. -/
theorem C14_witness :
    exampleHost.files "meshes/triangle.stl" = some triangleFile ∧
    0 < triangleFile.numTriangles ∧
    triangleFile.triangles.length = triangleFile.numTriangles ∧
    (∀ v ∈ triangleFile.vertices, InFloatRange v.x ∧ InFloatRange v.y ∧ InFloatRange v.z) ∧
    ((∃ lo hi, lo ∈ triangleFile.vertices.map G4ThreeVector.x ∧
        hi ∈ triangleFile.vertices.map G4ThreeVector.x ∧
        (∀ c ∈ triangleFile.vertices.map G4ThreeVector.x, lo ≤ c ∧ c ≤ hi) ∧
        (GetSTLMeshCenter exampleHost "meshes/triangle.stl").x = (lo + hi) / 2) ∧
      (∃ lo hi, lo ∈ triangleFile.vertices.map G4ThreeVector.y ∧
        hi ∈ triangleFile.vertices.map G4ThreeVector.y ∧
        (∀ c ∈ triangleFile.vertices.map G4ThreeVector.y, lo ≤ c ∧ c ≤ hi) ∧
        (GetSTLMeshCenter exampleHost "meshes/triangle.stl").y = (lo + hi) / 2) ∧
      (∃ lo hi, lo ∈ triangleFile.vertices.map G4ThreeVector.z ∧
        hi ∈ triangleFile.vertices.map G4ThreeVector.z ∧
        (∀ c ∈ triangleFile.vertices.map G4ThreeVector.z, lo ≤ c ∧ c ≤ hi) ∧
        (GetSTLMeshCenter exampleHost "meshes/triangle.stl").z = (lo + hi) / 2)) :=
  have hfloat : ∀ v ∈ triangleFile.vertices,
      InFloatRange v.x ∧ InFloatRange v.y ∧ InFloatRange v.z := by
    intro v hv
    simp only [STLFile.vertices, triangleFile, triangleRecord, List.flatMap_cons,
      List.flatMap_nil, List.append_nil, List.mem_cons, List.mem_singleton, List.not_mem_nil,
      or_false] at hv
    rcases hv with rfl | rfl | rfl <;> norm_num [InFloatRange, FLT_MAX]
  ⟨rfl, by decide, rfl, hfloat,
    (C14_mesh_center exampleHost "meshes/triangle.stl").1 triangleFile rfl (by decide) rfl
      hfloat⟩

/-- C15: every vertex that `LoadSTLSolid` builds is, per coordinate,
`(v_raw - offset) * scaleFactor`, the offset subtracted before scaling; the
facets of a solid loaded from a complete file are the records with each of
their three vertices so transformed; for the offset `(1,1,1)` and the scale 10
the raw vertex `(2,2,2)` becomes `(10,10,10)`. -/
theorem C15_vertex_transform (host : Host) (g : SteppingAction) (filename name : String)
    (scaleFactor : ℚ) (offset : G4ThreeVector) :
    (∀ v : G4ThreeVector,
      offsetVertex v scaleFactor offset
        = { x := (v.x - offset.x) * scaleFactor
            y := (v.y - offset.y) * scaleFactor
            z := (v.z - offset.z) * scaleFactor }) ∧
    (∀ file solid, host.files filename = some file →
      file.triangles.length = file.numTriangles →
      (LoadSTLSolid host g filename name scaleFactor offset).1 = some solid →
      solid.facets = file.triangles.map (fun t =>
        { vertex1 := offsetVertex t.v1 scaleFactor offset
          vertex2 := offsetVertex t.v2 scaleFactor offset
          vertex3 := offsetVertex t.v3 scaleFactor offset })) ∧
    offsetVertex ⟨2, 2, 2⟩ 10 ⟨1, 1, 1⟩ = ⟨10, 10, 10⟩ := by
  refine ⟨?_, ?_, ?_⟩
  · intro v
    simp [offsetVertex, mm]
  · intro file solid hopen hcomplete hload
    rw [LoadSTLSolid_complete host g filename name scaleFactor offset file hopen hcomplete] at hload
    simp only [Option.some.injEq] at hload
    rw [← hload]
    rfl
  · simp [offsetVertex, mm]
    norm_num

/-- Witness of C15: the single-triangle file loaded with the offset `(1,1,1)`
and the scale 10. -/
theorem C15_witness :
    exampleHost.files "meshes/triangle.stl" = some triangleFile ∧
    triangleFile.triangles.length = triangleFile.numTriangles ∧
    (LoadSTLSolid exampleHost ⟨[], []⟩ "meshes/triangle.stl" "Tube_solid" 10 ⟨1, 1, 1⟩).1
      = some { name := "Tube_solid"
               facets := triangleFile.triangles.map (facetOf 10 ⟨1, 1, 1⟩)
               solidClosed := true } ∧
    ({ name := "Tube_solid"
       facets := triangleFile.triangles.map (facetOf 10 ⟨1, 1, 1⟩)
       solidClosed := true } : G4TessellatedSolid).facets
      = triangleFile.triangles.map (fun t =>
        { vertex1 := offsetVertex t.v1 10 ⟨1, 1, 1⟩
          vertex2 := offsetVertex t.v2 10 ⟨1, 1, 1⟩
          vertex3 := offsetVertex t.v3 10 ⟨1, 1, 1⟩ }) :=
  have hload : (LoadSTLSolid exampleHost ⟨[], []⟩ "meshes/triangle.stl" "Tube_solid" 10
      ⟨1, 1, 1⟩).1
      = some { name := "Tube_solid"
               facets := triangleFile.triangles.map (facetOf 10 ⟨1, 1, 1⟩)
               solidClosed := true } := by
    rw [LoadSTLSolid_complete exampleHost ⟨[], []⟩ "meshes/triangle.stl" "Tube_solid" 10
      ⟨1, 1, 1⟩ triangleFile rfl rfl]
  ⟨rfl, rfl, hload,
    (C15_vertex_transform exampleHost ⟨[], []⟩ "meshes/triangle.stl" "Tube_solid" 10
      ⟨1, 1, 1⟩).2.1 triangleFile _ rfl rfl hload⟩

/-- C16, as stated, fails: in the example host the sitophilus mesh cannot be
opened while the Ethanol and Tube meshes can; with sitophilus selected
`ConstructMeshes` changes nothing: Ethanol and Tube are neither placed nor
registered. -/
theorem C16_counterexample :
    exampleHost.files (insectFiles "sitophilus") = none ∧
      exampleHost.files "meshes/100_EtOH.stl" = some tetrahedronFile ∧
      exampleHost.files "meshes/tube.stl" = some tetrahedronFile ∧
      ConstructMeshes exampleHost ⟨[], []⟩ ⟨"sitophilus", []⟩ = (⟨[], []⟩, ⟨"sitophilus", []⟩) ∧
      "Ethanol" ∉ (ConstructMeshes exampleHost ⟨[], []⟩ ⟨"sitophilus", []⟩).2.placed ∧
      "Tube" ∉ (ConstructMeshes exampleHost ⟨[], []⟩ ⟨"sitophilus", []⟩).2.placed ∧
      (ConstructMeshes exampleHost ⟨[], []⟩ ⟨"sitophilus", []⟩).1.volumeMap.find "Ethanol" = none ∧
      (ConstructMeshes exampleHost ⟨[], []⟩ ⟨"sitophilus", []⟩).1.volumeMap.find "Tube" = none := by
  have h : ConstructMeshes exampleHost ⟨[], []⟩ ⟨"sitophilus", []⟩
      = (⟨[], []⟩, ⟨"sitophilus", []⟩) := by
    have hf : exampleHost.files (insectFiles "sitophilus") = none := rfl
    simp only [ConstructMeshes, LoadSTLSolid_unopened exampleHost _ _ _ _ _ hf]
  refine ⟨rfl, rfl, rfl, h, ?_, ?_, ?_, ?_⟩ <;> rw [h] <;> simp [StdMap.find]

/-- C16 (amended): if the mesh of the selected insect fails to load,
`ConstructMeshes` stops at once and leaves the registry and the placements as
they were, so Ethanol and Tube are neither loaded, placed nor registered.  If
the insect mesh loads, a failure of the Ethanol mesh omits only Ethanol (insect
and Tube are placed and registered), and a failure of the Tube mesh omits only
Tube (insect and Ethanol are placed and registered). -/
theorem C16_failure_policy (host : Host) (g : SteppingAction) (det : DetectorConstruction) :
    (host.files (insectFiles det.selectedInsect) = none →
      ConstructMeshes host g det = (g, det)) ∧
    (∀ insectFile tubeFile,
      host.files (insectFiles det.selectedInsect) = some insectFile →
      host.files "meshes/100_EtOH.stl" = none →
      host.files "meshes/tube.stl" = some tubeFile →
      (ConstructMeshes host g det).2.placed = det.placed ++ [det.selectedInsect, "Tube"] ∧
      (∃ volume, (ConstructMeshes host g det).1.volumeMap.find "Tube" = some volume) ∧
      (∃ volume, (ConstructMeshes host g det).1.volumeMap.find
        (volumeNameOf (det.selectedInsect ++ "_solid")) = some volume)) ∧
    (∀ insectFile ethanolFile,
      host.files (insectFiles det.selectedInsect) = some insectFile →
      host.files "meshes/100_EtOH.stl" = some ethanolFile →
      host.files "meshes/tube.stl" = none →
      (ConstructMeshes host g det).2.placed = det.placed ++ [det.selectedInsect, "Ethanol"] ∧
      (∃ volume, (ConstructMeshes host g det).1.volumeMap.find "Ethanol" = some volume) ∧
      (∃ volume, (ConstructMeshes host g det).1.volumeMap.find
        (volumeNameOf (det.selectedInsect ++ "_solid")) = some volume)) := by
  refine ⟨?_, ?_, ?_⟩
  · intro hf
    simp only [ConstructMeshes, LoadSTLSolid_unopened host _ _ _ _ _ hf]
  · intro insectFile tubeFile hi he ht
    simp only [ConstructMeshes, LoadSTLSolid_opened host _ _ _ _ _ insectFile hi,
      LoadSTLSolid_unopened host _ _ _ _ _ he, LoadSTLSolid_opened host _ _ _ _ _ tubeFile ht,
      knownVolumes_eq_zero, gt_iff_lt, lt_self_iff_false, if_false, place, volumeNameOf_Tube]
    refine ⟨by simp, ⟨_, by
      simp only [SteppingAction.setVolume]
      rw [StdMap.find_assign_self]⟩, ?_⟩
    by_cases hk : volumeNameOf (det.selectedInsect ++ "_solid") = "Tube"
    · rw [hk]
      exact ⟨_, by
      simp only [SteppingAction.setVolume]
      rw [StdMap.find_assign_self]⟩
    · exact ⟨_, by
        simp only [SteppingAction.setVolume]
        rw [StdMap.find_assign_of_ne _ _ _ _ hk, StdMap.find_assign_self]⟩
  · intro insectFile ethanolFile hi he ht
    simp only [ConstructMeshes, LoadSTLSolid_opened host _ _ _ _ _ insectFile hi,
      LoadSTLSolid_opened host _ _ _ _ _ ethanolFile he, LoadSTLSolid_unopened host _ _ _ _ _ ht,
      knownVolumes_eq_zero, gt_iff_lt, lt_self_iff_false, if_false, place, volumeNameOf_Ethanol]
    refine ⟨by simp, ⟨_, by
      simp only [SteppingAction.setVolume]
      rw [StdMap.find_assign_self]⟩, ?_⟩
    by_cases hk : volumeNameOf (det.selectedInsect ++ "_solid") = "Ethanol"
    · rw [hk]
      exact ⟨_, by
      simp only [SteppingAction.setVolume]
      rw [StdMap.find_assign_self]⟩
    · exact ⟨_, by
        simp only [SteppingAction.setVolume]
        rw [StdMap.find_assign_of_ne _ _ _ _ hk, StdMap.find_assign_of_ne _ _ _ _ hk,
          StdMap.find_assign_self]⟩

/-- Witness of C16 (amended): sitophilus, whose mesh is missing in the example
host, and drosophila in the host without the Tube mesh. -/
theorem C16_witness :
    (exampleHost.files (insectFiles "sitophilus") = none ∧
      ConstructMeshes exampleHost ⟨[], []⟩ ⟨"sitophilus", []⟩ = (⟨[], []⟩, ⟨"sitophilus", []⟩)) ∧
    (tubelessHost.files (insectFiles "drosophila") = some tetrahedronFile ∧
      tubelessHost.files "meshes/100_EtOH.stl" = some tetrahedronFile ∧
      tubelessHost.files "meshes/tube.stl" = none ∧
      (ConstructMeshes tubelessHost ⟨[], []⟩ ⟨"drosophila", []⟩).2.placed
        = [] ++ ["drosophila", "Ethanol"] ∧
      (∃ volume, (ConstructMeshes tubelessHost ⟨[], []⟩ ⟨"drosophila", []⟩).1.volumeMap.find
        "Ethanol" = some volume) ∧
      (∃ volume, (ConstructMeshes tubelessHost ⟨[], []⟩ ⟨"drosophila", []⟩).1.volumeMap.find
        (volumeNameOf ("drosophila" ++ "_solid")) = some volume)) :=
  ⟨⟨rfl, (C16_failure_policy exampleHost ⟨[], []⟩ ⟨"sitophilus", []⟩).1 rfl⟩,
    ⟨rfl, rfl, rfl,
      (C16_failure_policy tubelessHost ⟨[], []⟩ ⟨"drosophila", []⟩).2.2
        tetrahedronFile tetrahedronFile rfl rfl rfl⟩⟩

/-- C17, the code at the failing input: the geometry is built for drosophila,
`SetSelectedInsect("leptopilina")` requests a rebuild, and the geometry is
built again.  The new build places leptopilina, Ethanol and Tube, but the
registry still holds the entry of drosophila with its old volume next to the
three new ones. -/
theorem C17_stale_registry_entry :
    SetSelectedInsect exampleHost (Construct exampleHost ⟨[], []⟩ ⟨"drosophila", []⟩).2
        "leptopilina"
      = (⟨"leptopilina", ["drosophila", "Ethanol", "Tube"]⟩, true) ∧
    (Construct exampleHost (Construct exampleHost ⟨[], []⟩ ⟨"drosophila", []⟩).1
        (SetSelectedInsect exampleHost (Construct exampleHost ⟨[], []⟩ ⟨"drosophila", []⟩).2
          "leptopilina").1).2
      = ⟨"leptopilina", ["leptopilina", "Ethanol", "Tube"]⟩ ∧
    (Construct exampleHost (Construct exampleHost ⟨[], []⟩ ⟨"drosophila", []⟩).1
        (SetSelectedInsect exampleHost (Construct exampleHost ⟨[], []⟩ ⟨"drosophila", []⟩).2
          "leptopilina").1).1.volumeMap.keys
      = ["Ethanol", "Tube", "drosophila", "leptopilina"] ∧
    (Construct exampleHost (Construct exampleHost ⟨[], []⟩ ⟨"drosophila", []⟩).1
        (SetSelectedInsect exampleHost (Construct exampleHost ⟨[], []⟩ ⟨"drosophila", []⟩).2
          "leptopilina").1).1.volumeMap.find "drosophila"
      = some (500 / 3) := by
  have hsel : SetSelectedInsect exampleHost ⟨"drosophila", ["drosophila", "Ethanol", "Tube"]⟩
      "leptopilina" = (⟨"leptopilina", ["drosophila", "Ethanol", "Tube"]⟩, true) := by
    simp [SetSelectedInsect, exampleHost]
  rw [exampleHost_first_build, hsel, exampleHost_second_build]
  refine ⟨rfl, rfl, rfl, ?_⟩
  simp [StdMap.find]

/-- C18: `SetSelectedInsect(name)` with a name other than drosophila,
leptopilina and sitophilus leaves the object unchanged and requests no geometry
rebuild; with one of the three names the selection afterwards equals that
name. -/
theorem C18_select_insect (host : Host) (det : DetectorConstruction) (name : String) :
    ((name ≠ "drosophila" ∧ name ≠ "leptopilina" ∧ name ≠ "sitophilus") →
      SetSelectedInsect host det name = (det, false)) ∧
    ((name = "drosophila" ∨ name = "leptopilina" ∨ name = "sitophilus") →
      (SetSelectedInsect host det name).1.selectedInsect = name) := by
  refine ⟨?_, ?_⟩
  · intro h
    rw [SetSelectedInsect, if_pos h]
  · intro h
    have hn : ¬ (name ≠ "drosophila" ∧ name ≠ "leptopilina" ∧ name ≠ "sitophilus") := by
      rintro ⟨h1, h2, h3⟩
      rcases h with h | h | h
      · exact h1 h
      · exact h2 h
      · exact h3 h
    rw [SetSelectedInsect, if_neg hn]
    by_cases hs : det.selectedInsect = name
    · simp [hs]
    · simp only [hs, if_false]
      cases host.runManager <;> simp

/-- Witness of C18: the unknown name bee and the known name leptopilina, with
drosophila selected. -/
theorem C18_witness :
    ((("bee" : String) ≠ "drosophila" ∧ ("bee" : String) ≠ "leptopilina" ∧
        ("bee" : String) ≠ "sitophilus") ∧
      SetSelectedInsect exampleHost ⟨"drosophila", []⟩ "bee" = (⟨"drosophila", []⟩, false)) ∧
    ((("leptopilina" : String) = "drosophila" ∨ ("leptopilina" : String) = "leptopilina" ∨
        ("leptopilina" : String) = "sitophilus") ∧
      (SetSelectedInsect exampleHost ⟨"drosophila", []⟩ "leptopilina").1.selectedInsect
        = "leptopilina") :=
  ⟨⟨by decide, (C18_select_insect exampleHost ⟨"drosophila", []⟩ "bee").1 (by decide)⟩,
    ⟨by decide,
      (C18_select_insect exampleHost ⟨"drosophila", []⟩ "leptopilina").2 (by decide)⟩⟩

/-- C19: in the report of a run with a non-zero number of events, every row is
computed without a division by zero, and the row of every registered volume
whose mass `volume * density` is `≤ 0` has dose, dose per event and dose rate
exactly 0; for such a volume the guarded block, which holds the division by
the mass and the division by the number of events, is not executed: the row
is computed without a division by zero whatever the number of events, 0
included. -/
theorem C19_zero_mass (canOpen : String → Bool)
    (outputPrefix insectName : String) (nEvents : Int)
    (photonFlux : ℚ) (g : SteppingAction) (hn : nEvents ≠ 0) :
    ∃ rep, EndOfRunAction canOpen outputPrefix insectName nEvents photonFlux g = some rep ∧
      List.Forall₂
        (fun entry row => row.volName = entry.1 ∧
          reportRowChecked nEvents (photonFlux * beamArea) g.doseMap entry = some row ∧
          (massOf entry.1 entry.2 ≤ 0 →
            row.dose = 0 ∧ row.dosePerEvent = 0 ∧ row.doseRate = 0 ∧
            ∀ n : Int, reportRowChecked n (photonFlux * beamArea) g.doseMap entry = some row))
        g.volumeMap rep.rows := by
  obtain ⟨rep, hrep, hrows⟩ :=
    EndOfRunAction_rows canOpen outputPrefix insectName nEvents photonFlux g hn
  refine ⟨rep, hrep, ?_⟩
  rw [hrows]
  apply forall₂_map_same
  intro entry _
  exact ⟨rfl, reportRowChecked_eq nEvents _ g.doseMap entry hn,
    reportRow_zero_mass nEvents _ g.doseMap entry⟩

/-- Witness of C19: a registered volume of 0 for Tube. -/
theorem C19_witness :
    (100 : Int) ≠ 0 ∧ massOf "Tube" 0 ≤ 0 ∧
    ∃ rep, EndOfRunAction (fun _ => true) "dose_results_" "drosophila" 100 1e12
        ⟨[("Tube", 500)], [("Tube", 0)]⟩ = some rep ∧
      List.Forall₂
        (fun entry row => row.volName = entry.1 ∧
          reportRowChecked 100 (1e12 * beamArea)
            (⟨[("Tube", 500)], [("Tube", 0)]⟩ : SteppingAction).doseMap entry = some row ∧
          (massOf entry.1 entry.2 ≤ 0 →
            row.dose = 0 ∧ row.dosePerEvent = 0 ∧ row.doseRate = 0 ∧
            ∀ n : Int, reportRowChecked n (1e12 * beamArea)
              (⟨[("Tube", 500)], [("Tube", 0)]⟩ : SteppingAction).doseMap entry = some row))
        ([("Tube", 0)] : StdMap) rep.rows :=
  ⟨by decide, by simp [massOf],
    C19_zero_mass (fun _ => true) "dose_results_" "drosophila" 100 1e12
      ⟨[("Tube", 500)], [("Tube", 0)]⟩ (by decide)⟩

/-- C20, as stated, fails: for a run of 0 events `EndOfRunAction` returns
before it writes anything, so there is no report; and for a run of 100 events
whose output file cannot be opened the rows are computed but no file, and so
no header, is produced. -/
theorem C20_counterexample :
    EndOfRunAction (fun _ => true) "dose_results_" "drosophila" 0 1e12
        ⟨[("Tube", 500)], [("Tube", 1000)]⟩ = none ∧
    ∃ rep, EndOfRunAction (fun _ => false) "missing_dir/dose_results_" "drosophila" 100 1e12
        ⟨[("Tube", 500)], [("Tube", 1000)]⟩ = some rep ∧
      rep.file = none := by
  refine ⟨by simp [EndOfRunAction], ?_⟩
  rw [EndOfRunAction, if_neg (by decide)]
  exact ⟨_, rfl, rfl⟩

/-- C20 (amended): for every registry, ledger and run with a non-zero number of
events `EndOfRunAction` computes one row per registered volume, in registry
order; if the output file opens, the file holds the header values and these
rows; if it does not open, no file is produced.  For a run of 0 events
`EndOfRunAction` produces no report. -/
theorem C20_report_or_nothing (canOpen : String → Bool)
    (outputPrefix insectName : String) (nEvents : Int)
    (photonFlux : ℚ) (g : SteppingAction) :
    (nEvents ≠ 0 →
      ∃ rep, EndOfRunAction canOpen outputPrefix insectName nEvents photonFlux g = some rep ∧
        rep.fileName = outputPrefix ++ insectName ++ ".txt" ∧
        rep.nEvents = nEvents ∧ rep.photonFlux = photonFlux ∧
        rep.rows.length = g.volumeMap.length ∧
        rep.rows.map ReportRow.volName = g.volumeMap.keys ∧
        (canOpen (outputPrefix ++ insectName ++ ".txt") = true →
          rep.file = some (nEvents, photonFlux, rep.rows)) ∧
        (canOpen (outputPrefix ++ insectName ++ ".txt") = false → rep.file = none)) ∧
    (nEvents = 0 → EndOfRunAction canOpen outputPrefix insectName nEvents photonFlux g = none) := by
  refine ⟨?_, ?_⟩
  · intro hn
    rw [EndOfRunAction, if_neg hn]
    refine ⟨_, rfl, rfl, rfl, rfl, ?_, ?_, ?_, ?_⟩
    · simp [getVolumeMap]
    · simp only [getVolumeMap, List.map_map]
      rfl
    · intro h
      simp [Report.file, h]
    · intro h
      simp [Report.file, h]
  · intro h0
    simp [EndOfRunAction, h0]

/-- Witness of C20 (amended): a run of 100 events whose output file opens. -/
theorem C20_witness :
    (100 : Int) ≠ 0 ∧
    ∃ rep, EndOfRunAction (fun _ => true) "dose_results_" "drosophila" 100 1e12
        ⟨[("Tube", 500)], [("Tube", 1000)]⟩ = some rep ∧
      rep.fileName = "dose_results_" ++ "drosophila" ++ ".txt" ∧
      rep.nEvents = 100 ∧ rep.photonFlux = 1e12 ∧
      rep.rows.length = ([("Tube", 1000)] : StdMap).length ∧
      rep.rows.map ReportRow.volName = StdMap.keys [("Tube", 1000)] ∧
      ((fun _ => true) ("dose_results_" ++ "drosophila" ++ ".txt") = true →
        rep.file = some (100, 1e12, rep.rows)) ∧
      ((fun _ => true) ("dose_results_" ++ "drosophila" ++ ".txt") = false →
        rep.file = none) :=
  ⟨by decide,
    (C20_report_or_nothing (fun _ => true) "dose_results_" "drosophila" 100 1e12
      ⟨[("Tube", 500)], [("Tube", 1000)]⟩).1 (by decide)⟩

/-- C21, the code at the failing input.  `SetSpectrumFilename` leaves the table
that `InitializeSpectrum` builds from the new filename, but `SetMonochromatic`
and `SetMonoEnergy` only store their argument and leave the table, and with it
every sample, as it was.  On the generator whose table was built from the
two-bin spectrum, after `SetMonochromatic(true)` and `SetMonoEnergy(15.2 keV)`
the sample at `u = 1/2` is still 2 keV, while the table that
`InitializeSpectrum` builds from the new configuration samples 15.2 keV. -/
theorem C21_mono_setters_keep_old_table :
    (∀ (stdSort : List (ℚ × ℚ) → List (ℚ × ℚ)) (readSpectrum : String → List (ℚ × ℚ))
        (s : PrimaryGeneratorAction) (filename : String),
      SetSpectrumFilename stdSort readSpectrum s filename
        = InitializeSpectrum stdSort readSpectrum { s with spectrumFilename := filename }) ∧
    (∀ (s : PrimaryGeneratorAction) (mono : Bool) (e u : ℚ),
      SampleEnergyFromSpectrum (SetMonoEnergy (SetMonochromatic s mono) e) u
        = SampleEnergyFromSpectrum s u) ∧
    ∃ t, InitializeSpectrum stableSort twoBinSpectrum exampleGenerator = Except.ok t ∧
      SampleEnergyFromSpectrum (SetMonoEnergy (SetMonochromatic t true) (15.2 * keV)) (1 / 2)
        = some (2 * keV) ∧
      (2 * keV : ℚ) ≠ 15.2 * keV ∧
      ∃ t2, InitializeSpectrum stableSort twoBinSpectrum
          (SetMonoEnergy (SetMonochromatic t true) (15.2 * keV)) = Except.ok t2 ∧
        SampleEnergyFromSpectrum t2 (1 / 2) = some (15.2 * keV) := by
  refine ⟨?_, ?_, ?_⟩
  · intro stdSort readSpectrum s filename
    simp only [SetSpectrumFilename, InitializeSpectrum]
  · intro s mono e u
    rfl
  · refine ⟨_, twoBin_table, ?_, ?_, ?_⟩
    · have h := sample_twoBin
        (SetMonoEnergy (SetMonochromatic
          { exampleGenerator with
            spectrumEnergies := [1 * keV, 2 * keV]
            spectrumIntensities := [1 / 4, 3 / 4]
            cumulativeDistribution := [0, 1 / 4, 1]
            maxIntensity := 3 / 4 } true) (15.2 * keV)) rfl rfl (1 / 2) (by norm_num)
        (by norm_num)
      rw [h, if_neg (by norm_num)]
    · norm_num [keV]
    · refine ⟨{ exampleGenerator with
                  spectrumEnergies := [15.2 * keV]
                  spectrumIntensities := [1]
                  cumulativeDistribution := [0, 1]
                  maxIntensity := 1
                  monochromatic := true
                  monoEnergy := 15.2 * keV },
        by simp [InitializeSpectrum, SetMonoEnergy, SetMonochromatic], ?_⟩
      have hlb : lowerBound [0, 1] (1 / 2 : ℚ) = if (0 : ℚ) < 1 / 2 then 1 else 0 :=
        lowerBound_unit_table (1 / 2) (by norm_num)
      have hwrap : (1 + 2 ^ sizeBits - 1) % 2 ^ sizeBits = 0 := by norm_num [sizeBits]
      simp only [SampleEnergyFromSpectrum, sampleIndex, sampleSizeMinus1, hlb, List.length_singleton, hwrap]
      norm_num

/-- C23: for every table that `InitializeSpectrum` builds from at least one
parsed pair with non-negative intensities, `SampleEnergyFromSpectrum` selects
for every `u` in `[0, 1)` the bin of the reference (smallest index `i0` with
`cumulative[i0] ≥ u`, one less if `i0 > 0`, clamped to `N - 1`) and computes
what the reference computes (interpolation between `energies[i]` and
`energies[i+1]` if `i < N - 1`, else `energies[N-1]`); for every `u` in
`(0, 1)`, the range of `G4UniformRand()`, the chosen bin `i` satisfies
`cumulative[i] < u ≤ cumulative[i+1]`, so the divisor of the interpolation is
not zero, and both return the same energy. -/
theorem C23_sampler_refines_reference (stdSort : List (ℚ × ℚ) → List (ℚ × ℚ))
    (hsort : StdSort stdSort) (readSpectrum : String → List (ℚ × ℚ))
    (s : PrimaryGeneratorAction) (hpoly : s.monochromatic = false)
    (hne : readSpectrum s.spectrumFilename ≠ [])
    (hfit : (readSpectrum s.spectrumFilename).length < 2 ^ sizeBits)
    (hnn : ∀ p ∈ readSpectrum s.spectrumFilename, 0 ≤ p.2) :
    ∃ t, InitializeSpectrum stdSort readSpectrum s = Except.ok t ∧
      (∀ u : ℚ, 0 ≤ u → u < 1 →
        sampleIndex t u = referenceBin t.spectrumEnergies t.cumulativeDistribution u ∧
        SampleEnergyFromSpectrum t u
          = referenceSample t.spectrumEnergies t.cumulativeDistribution u) ∧
      (∀ u : ℚ, 0 < u → u < 1 →
        ∃ c0 c1 e,
          t.cumulativeDistribution[referenceBin t.spectrumEnergies t.cumulativeDistribution u]?
            = some c0 ∧
          t.cumulativeDistribution[referenceBin t.spectrumEnergies t.cumulativeDistribution u
            + 1]? = some c1 ∧
          c0 < u ∧ u ≤ c1 ∧
          SampleEnergyFromSpectrum t u = some e ∧
          referenceSample t.spectrumEnergies t.cumulativeDistribution u = some e) := by
  obtain ⟨t, ht, hv, _⟩ :=
    InitializeSpectrum_valid stdSort hsort readSpectrum s hpoly hne hfit (Or.inl hnn)
  refine ⟨t, ht, ?_, ?_⟩
  · intro u _ _
    obtain ⟨hbin, hsample⟩ := reference_eq t hv u
    exact ⟨hbin.symm, hsample.symm⟩
  · intro u h0 h1
    obtain ⟨hbin, hsample⟩ := reference_eq t hv u
    obtain ⟨hc0, hc1⟩ := bin_bounds t hv u h0 (le_of_lt h1)
    obtain ⟨e, he, _, _⟩ := sample_bounds t hv u h0 (le_of_lt h1)
    have hlt := sampleIndex_lt t hv u
    have hlen := hv.lengthCumulative
    rw [hbin, hsample]
    exact ⟨_, _, e, getElem?_eq_some_getD _ _ (by omega), getElem?_eq_some_getD _ _ (by omega),
      hc0, hc1, he, he⟩

/-- Witness of C23: the two-bin spectrum. -/
theorem C23_witness :
    exampleGenerator.monochromatic = false ∧
    twoBinSpectrum exampleGenerator.spectrumFilename ≠ [] ∧
    (twoBinSpectrum exampleGenerator.spectrumFilename).length < 2 ^ sizeBits ∧
    (∀ p ∈ twoBinSpectrum exampleGenerator.spectrumFilename, 0 ≤ p.2) ∧
    ∃ t, InitializeSpectrum stableSort twoBinSpectrum exampleGenerator = Except.ok t ∧
      (∀ u : ℚ, 0 ≤ u → u < 1 →
        sampleIndex t u = referenceBin t.spectrumEnergies t.cumulativeDistribution u ∧
        SampleEnergyFromSpectrum t u
          = referenceSample t.spectrumEnergies t.cumulativeDistribution u) ∧
      (∀ u : ℚ, 0 < u → u < 1 →
        ∃ c0 c1 e,
          t.cumulativeDistribution[referenceBin t.spectrumEnergies t.cumulativeDistribution u]?
            = some c0 ∧
          t.cumulativeDistribution[referenceBin t.spectrumEnergies t.cumulativeDistribution u
            + 1]? = some c1 ∧
          c0 < u ∧ u ≤ c1 ∧
          SampleEnergyFromSpectrum t u = some e ∧
          referenceSample t.spectrumEnergies t.cumulativeDistribution u = some e) :=
  ⟨rfl, by simp [twoBinSpectrum], by norm_num [twoBinSpectrum, sizeBits],
    by simp [twoBinSpectrum]; norm_num,
    C23_sampler_refines_reference stableSort stableSort_stdSort twoBinSpectrum exampleGenerator
      rfl (by simp [twoBinSpectrum]) (by norm_num [twoBinSpectrum, sizeBits])
      (by simp [twoBinSpectrum]; norm_num)⟩

/-- C24, as stated, fails: from the parsed pairs `(1000 eV, -1), (2000 eV, 3)`
`InitializeSpectrum` builds the intensities `[-1/2, 3/2]` and the cumulative
values `[0, -1/2, 1]`: a stored intensity is negative and the cumulative
values decrease. -/
theorem C24_counterexample :
    ∃ t, InitializeSpectrum stableSort negativeSpectrum exampleGenerator = Except.ok t ∧
      t.spectrumIntensities = [-1 / 2, 3 / 2] ∧
      t.cumulativeDistribution = [0, -1 / 2, 1] ∧
      ¬ (∀ x ∈ t.spectrumIntensities, 0 ≤ x) ∧
      ¬ t.cumulativeDistribution.Pairwise (· ≤ ·) := by
  have hsum : 0 < ((negativeSpectrum exampleGenerator.spectrumFilename).map Prod.snd).sum := by
    norm_num [negativeSpectrum]
  refine ⟨_, InitializeSpectrum_poly stableSort stableSort_stdSort negativeSpectrum exampleGenerator rfl
    (by simp [negativeSpectrum]) hsum, ?_, ?_, ?_, ?_⟩
  · simp [negativeSpectrum, stableSort, List.insertionSort, List.orderedInsert, energyLE,
      normalizeLoop]
    norm_num
  · simp [negativeSpectrum, stableSort, List.insertionSort, List.orderedInsert, energyLE,
      normalizeLoop]
    norm_num
  · simp [negativeSpectrum, stableSort, List.insertionSort, List.orderedInsert, energyLE,
      normalizeLoop]
    norm_num
  · simp [negativeSpectrum, stableSort, List.insertionSort, List.orderedInsert, energyLE,
      normalizeLoop]
    norm_num

/-- C24 (amended): for every spectrum source that yields at least one parsed
pair, `InitializeSpectrum` in polychromatic mode builds a table with one
energy and one intensity per pair, the intensities sum to 1, and the
cumulative values have one more element, start at 0 and end at 1.  If no
intensity read is negative, or if the sum of the intensities read is not
positive (all intensities are then reset to 1), every stored intensity is
`≥ 0` and the cumulative values are non-decreasing. -/
theorem C24_table_invariant (stdSort : List (ℚ × ℚ) → List (ℚ × ℚ))
    (hsort : StdSort stdSort) (readSpectrum : String → List (ℚ × ℚ))
    (s : PrimaryGeneratorAction) (hpoly : s.monochromatic = false)
    (hne : readSpectrum s.spectrumFilename ≠ []) :
    ∃ t, InitializeSpectrum stdSort readSpectrum s = Except.ok t ∧
      t.spectrumEnergies.length = (readSpectrum s.spectrumFilename).length ∧
      t.spectrumIntensities.length = t.spectrumEnergies.length ∧
      t.spectrumIntensities.sum = 1 ∧
      t.cumulativeDistribution.length = t.spectrumEnergies.length + 1 ∧
      t.cumulativeDistribution[0]? = some 0 ∧
      t.cumulativeDistribution[t.spectrumEnergies.length]? = some 1 ∧
      (((∀ p ∈ readSpectrum s.spectrumFilename, 0 ≤ p.2) ∨
          ((readSpectrum s.spectrumFilename).map Prod.snd).sum ≤ 0) →
        (∀ x ∈ t.spectrumIntensities, 0 ≤ x) ∧ t.cumulativeDistribution.Pairwise (· ≤ ·)) := by
  obtain ⟨ints, m, hlen, hpos, hnn, _, hinit⟩ := InitializeSpectrum_table stdSort hsort readSpectrum s hpoly hne
  have hN : ((stdSort (readSpectrum s.spectrumFilename)).map (fun p => p.1 * eV)).length
      = (readSpectrum s.spectrumFilename).length := by
    simp [stdSort_length hsort]
  refine ⟨_, hinit, hN, ?_, ?_, ?_, ?_, ?_, ?_⟩
  · show (ints.map (fun x => x / ints.sum)).length = _
    rw [hN, List.length_map, hlen]
  · show (ints.map (fun x => x / ints.sum)).sum = 1
    rw [sum_map_div, div_self (ne_of_gt hpos)]
  · show (0 :: (normalizeLoop ints.sum ints 0).2).length = _
    rw [hN, List.length_cons, normalizeLoop_snd_length, hlen]
  · simp
  · show (0 :: (normalizeLoop ints.sum ints 0).2)[((stdSort
      (readSpectrum s.spectrumFilename)).map (fun p => p.1 * eV)).length]? = some 1
    rw [hN, ← hlen, normalizeLoop_getElem ints.sum ints 0 ints.length (le_refl _),
      List.take_of_length_le (by simp), sum_map_div, zero_add, div_self (ne_of_gt hpos)]
  · intro h
    refine ⟨?_, normalizeLoop_pairwise ints.sum ints 0 hpos (hnn h)⟩
    intro x hx
    have hx2 : x ∈ ints.map (fun x => x / ints.sum) := hx
    simp only [List.mem_map] at hx2
    obtain ⟨y, hy, rfl⟩ := hx2
    exact div_nonneg (hnn h y hy) (le_of_lt hpos)

/-- Witness of C24 (amended): the spectrum with a negative intensity. -/
theorem C24_witness :
    exampleGenerator.monochromatic = false ∧
    negativeSpectrum exampleGenerator.spectrumFilename ≠ [] ∧
    ∃ t, InitializeSpectrum stableSort negativeSpectrum exampleGenerator = Except.ok t ∧
      t.spectrumEnergies.length = (negativeSpectrum exampleGenerator.spectrumFilename).length ∧
      t.spectrumIntensities.length = t.spectrumEnergies.length ∧
      t.spectrumIntensities.sum = 1 ∧
      t.cumulativeDistribution.length = t.spectrumEnergies.length + 1 ∧
      t.cumulativeDistribution[0]? = some 0 ∧
      t.cumulativeDistribution[t.spectrumEnergies.length]? = some 1 ∧
      (((∀ p ∈ negativeSpectrum exampleGenerator.spectrumFilename, 0 ≤ p.2) ∨
          ((negativeSpectrum exampleGenerator.spectrumFilename).map Prod.snd).sum ≤ 0) →
        (∀ x ∈ t.spectrumIntensities, 0 ≤ x) ∧ t.cumulativeDistribution.Pairwise (· ≤ ·)) :=
  ⟨rfl, by simp [negativeSpectrum],
    C24_table_invariant stableSort stableSort_stdSort negativeSpectrum exampleGenerator rfl (by simp [negativeSpectrum])⟩

/-- C25, the code at the failing input: when the spectrum source yields no
parsed pair, `InitializeSpectrum` in polychromatic mode does not build the
default bin `[15.2 keV], [1], [0, 1]`; it throws "Failed to load spectrum
file" and builds no table.  The fallback that would
build the default bin stands after the throw and is reached only with at
least one parsed pair. -/
theorem C25_empty_parse_throws :
    emptySpectrum exampleGenerator.spectrumFilename = [] ∧
    InitializeSpectrum stableSort emptySpectrum exampleGenerator
      = Except.error "Failed to load spectrum file" ∧
    (¬ ∃ t, InitializeSpectrum stableSort emptySpectrum exampleGenerator = Except.ok t ∧
      t.spectrumEnergies = [15.2 * keV] ∧ t.spectrumIntensities = [1] ∧
      t.cumulativeDistribution = [0, 1]) := by
  have h : InitializeSpectrum stableSort emptySpectrum exampleGenerator
      = Except.error "Failed to load spectrum file" :=
    InitializeSpectrum_empty stableSort emptySpectrum exampleGenerator rfl rfl
  refine ⟨rfl, h, ?_⟩
  rintro ⟨t, ht, _⟩
  rw [h] at ht
  cases ht

end InsectDose
